import Mathlib

/-! Verification of the request handlers of `mongo_go_sample` (`handlers.go`).

The handlers talk to three collaborators that live outside `handlers.go`:
the MongoDB driver, the metrics helpers (`incrementEventCount`,
`trackMongoDBErrors`) and `net/http`.  The embedding keeps the control flow of
each handler and records every call to a collaborator in a trace, so that
statements such as "exactly `k` error-counter increments occur" become
statements about that trace.

* A database call is modelled by the sequence of its per-attempt outcomes:
  `call i` is what the driver returns at attempt `i` (numbered from `1`, like
  the loop variable of the source).
* `numRetries` and `config` are declared outside `handlers.go`; they are
  parameters of the handlers.
* Random values (`uuid.New`, `rand.Intn`), the clock and `json.Marshal` are
  supplied by an `Env`.
-/

namespace MongoGoSample

/-! ## Data model -/

/-- Go `error` values returned by the driver or by `encoding/json`.
`DeadlineExceeded` stands for `context.DeadlineExceeded`; every other error is
kept with its text. -/
inductive Err where
  | DeadlineExceeded
  | other (text : String)
deriving DecidableEq, Repr

/-- The method `Error()` of a Go `error`. -/
def Err.Error : Err → String
  | .DeadlineExceeded => "context deadline exceeded"
  | .other text => text

/-- A `context.Context` carrying a deadline (nanoseconds on the clock of `Env.now`). -/
structure Context where
  deadline : Int
deriving DecidableEq, Repr

/-- Go's `time.Millisecond`, a `time.Duration` counted in nanoseconds. -/
def Millisecond : Int := 1000000

/-- Two's-complement wrap-around of a 64-bit signed integer (`time.Duration` is an `int64`). -/
def wrap64 (x : Int) : Int := (x + 2 ^ 63) % 2 ^ 64 - 2 ^ 63

/-- The call `context.WithTimeout(context.Background(), d)`: the deadline is
the current time plus `d`. -/
def WithTimeout (now : Int) (d : Int) : Context := ⟨now + d⟩

/-- Modelled from the spec: the type `Document` is declared outside
`handlers.go`; the spec gives it the fields `id`, `key` and `x`. -/
structure Document where
  ID : String
  Key : String
  X : Int
deriving DecidableEq, Repr

/-- A `float64`, kept as its IEEE-754 bit pattern; the Go zero value `0.0` has
the bit pattern `0`. No floating-point arithmetic is performed by the handlers. -/
structure Float64 where
  bits : Nat
deriving DecidableEq, Repr

/-- The struct `AggregationResult` (lines 18-24). -/
structure AggregationResult where
  MinID : String
  MaxID : String
  MinKey : String
  MaxKey : String
  XAvg : Float64
deriving DecidableEq, Repr

/-- The Go zero value of `AggregationResult`, the value of `var result AggregationResult`. -/
def AggregationResult.zero : AggregationResult := ⟨"", "", "", "", ⟨0⟩⟩

/-- The driver's `*mongo.UpdateResult`; the handler discards it. -/
structure UpdateResult where
  MatchedCount : Int
  ModifiedCount : Int
  UpsertedCount : Int
deriving DecidableEq, Repr

/-- A `*mongo.Cursor`: the documents it still yields, and the error (if any)
that ends the iteration once they are consumed (what `cursor.Err()` would
report; the handlers never read it). -/
structure Cursor (D : Type) where
  docs : List D
  err : Option Err

/-- The call `cursor.Next(ctx)`: `some d` (Go: `true`, with `d` the current
document) while a document is left, `none` (Go: `false`) when the cursor is
exhausted or its iteration failed. -/
def Cursor.Next {D : Type} (c : Cursor D) : Option D × Cursor D :=
  match c.docs with
  | [] => (none, c)
  | d :: rest => (some d, { c with docs := rest })

/-- The process configuration read by the handlers (declared outside
`handlers.go`): three `time.Duration` values and the `int` sample size that
line 106 compares with the `int` loop variable. -/
structure Config where
  UpsertContextTimeout : Int
  FindContextTimeout : Int
  AggContextTimeout : Int
  AggInQuerySize : Int

/-- The sources of values the handlers draw from outside: the clock read by
`context.WithTimeout`, the successive results of `uuid.New().String()`, the
raw stream behind `rand.Intn`, and `json.Marshal` on an `AggregationResult`. -/
structure Env where
  now : Int
  uuid : Nat → String
  rand : Nat → Nat
  Marshal : AggregationResult → Except Err String

/-- The `k`-th call `rand.Intn(n)` of a request: a value in `[0, n)`. -/
def Env.Intn (env : Env) (k : Nat) (n : Nat) : Int := ((env.rand k % n : Nat) : Int)

/-! ## Calls to collaborators -/

/-- One call made by a handler to a collaborator, in program order. The
database calls (`UpdateOne`, `Find`, `Aggregate`) carry the context and the
query they were issued with, and whether they succeeded. The iteration of a
cursor (`Next`, `Decode`) is not recorded. -/
inductive Effect where
  | UpdateOne (ctx : Context) (filterKey : String) (update : Document) (upsert : Bool) (ok : Bool)
  | Find (ctx : Context) (filterX : Int) (limit : Int) (ok : Bool)
  | Aggregate (ctx : Context) (inValues : List Int) (ok : Bool)
  | incrementEventCount (name : String)
  | trackMongoDBErrors (err : Err)
  | logPrintf (format : String) (err : Err) (attempt : Int)
  | cursorClose (ctx : Context)
  | cancel
deriving DecidableEq, Repr

/-- Is the effect a database call (`UpdateOne`, `Find` or `Aggregate`)? -/
def Effect.isDbCall : Effect → Bool
  | .UpdateOne _ _ _ _ _ => true
  | .Find _ _ _ _ => true
  | .Aggregate _ _ _ => true
  | _ => false

/-- Is the effect a database call that returned an error? -/
def Effect.isFailedDbCall : Effect → Bool
  | .UpdateOne _ _ _ _ ok => !ok
  | .Find _ _ _ ok => !ok
  | .Aggregate _ _ ok => !ok
  | _ => false

/-- Is the effect a database call that returned without error? -/
def Effect.isOkDbCall : Effect → Bool
  | .UpdateOne _ _ _ _ ok => ok
  | .Find _ _ _ ok => ok
  | .Aggregate _ _ ok => ok
  | _ => false

/-- Is the effect a call of `trackMongoDBErrors`? -/
def Effect.isTrack : Effect → Bool
  | .trackMongoDBErrors _ => true
  | _ => false

/-- Is the effect a call of `incrementEventCount`? -/
def Effect.isEvent : Effect → Bool
  | .incrementEventCount _ => true
  | _ => false

/-- The context a database call was issued with. -/
def Effect.ctx? : Effect → Option Context
  | .UpdateOne ctx _ _ _ _ => some ctx
  | .Find ctx _ _ _ => some ctx
  | .Aggregate ctx _ _ => some ctx
  | _ => none

/-- The `key` of the filter an `UpdateOne` call was issued with. -/
def Effect.filterKey? : Effect → Option String
  | .UpdateOne _ key _ _ _ => some key
  | _ => none

/-- Number of database calls in a trace. -/
def dbCalls (t : List Effect) : Nat := t.countP Effect.isDbCall

/-- Number of failed database calls in a trace. -/
def failedDbCalls (t : List Effect) : Nat := t.countP Effect.isFailedDbCall

/-- Number of `trackMongoDBErrors` calls in a trace. -/
def trackCalls (t : List Effect) : Nat := t.countP Effect.isTrack

/-- Number of `incrementEventCount` calls in a trace, whatever the event name. -/
def eventCalls (t : List Effect) : Nat := t.countP Effect.isEvent

/-- Number of `incrementEventCount(name)` calls in a trace. -/
def eventCallsOf (name : String) (t : List Effect) : Nat :=
  t.count (Effect.incrementEventCount name)

/-! ## `net/http` -/

/-- The state of an `http.ResponseWriter`: the header map, the status line
once it is written, the body written so far, and how many times the status
line was committed (`WriteHeader`, explicit or implied by the first `Write`). -/
structure ResponseWriter where
  header : List (String × String)
  status : Option Nat
  body : String
  headerWrites : Nat
deriving DecidableEq, Repr

/-- The writer a handler receives: nothing written yet. -/
def ResponseWriter.new : ResponseWriter := ⟨[], none, "", 0⟩

/-- The call `w.Header().Del(key)`. -/
def ResponseWriter.DelHeader (w : ResponseWriter) (key : String) : ResponseWriter :=
  { w with header := w.header.filter (fun kv => kv.1 != key) }

/-- The call `w.Header().Set(key, value)`. -/
def ResponseWriter.SetHeader (w : ResponseWriter) (key value : String) : ResponseWriter :=
  { w with header := w.header.filter (fun kv => kv.1 != key) ++ [(key, value)] }

/-- The call `w.WriteHeader(code)`: the first call fixes the status, a later
one is superfluous and leaves the response as it is. -/
def ResponseWriter.WriteHeader (w : ResponseWriter) (code : Nat) : ResponseWriter :=
  match w.status with
  | some _ => w
  | none => { w with status := some code, headerWrites := w.headerWrites + 1 }

/-- The call `w.Write(text)`: commits status 200 if no status was written, then
appends to the body. -/
def ResponseWriter.Write (w : ResponseWriter) (text : String) : ResponseWriter :=
  let w := match w.status with
    | some _ => w
    | none => w.WriteHeader 200
  { w with body := w.body ++ text }

def StatusOK : Nat := 200
def StatusCreated : Nat := 201
def StatusInternalServerError : Nat := 500

/-- The function `http.Error(w, msg, code)` of `net/http`: plain-text headers,
the status `code`, and the message followed by a newline (`fmt.Fprintln`). -/
def httpError (w : ResponseWriter) (msg : String) (code : Nat) : ResponseWriter :=
  let w := w.DelHeader "Content-Length"
  let w := w.SetHeader "Content-Type" "text/plain; charset=utf-8"
  let w := w.SetHeader "X-Content-Type-Options" "nosniff"
  let w := w.WriteHeader code
  w.Write (msg ++ "\n")

/-- What a handler leaves behind: the response, the calls it made, and
whether it ended in a run-time panic instead of returning. -/
structure HandlerResult where
  w : ResponseWriter
  trace : List Effect
  panicked : Bool
deriving DecidableEq, Repr

/-! ## The retry loop (lines 39-48 and 68-78) -/

/-- The variables a retry loop assigns: `err`, the value returned by the
database call (`cursor` in `findDocuments`, discarded in `upsertDocument`),
and the calls made so far. -/
structure LoopState (R : Type) where
  err : Option Err
  res : Option R
  trace : List Effect

/-- The loop `for i := 1; i <= numRetries; i++ { ... }` of `upsertDocument` and
`findDocuments`, from the current value of `i`. The two loops differ only in
the database call (`dbCall ok` is the trace entry of the call, `call i` its
outcome at attempt `i`), the event name and the log format.

* `err == nil`: `incrementEventCount(event)`, then `break`;
* otherwise `trackMongoDBErrors(err)`, `log.Printf(format, err, i)` and the
  next iteration.

The error class is not inspected. The counter `i` stays within
`1 .. numRetries + 1`, so it is kept as an unbounded integer. -/
def retryLoop {R : Type} (numRetries : Int) (call : Int → Except Err R)
    (dbCall : Bool → Effect) (event format : String) (i : Int) (s : LoopState R) :
    LoopState R :=
  if i ≤ numRetries then
    match call i with
    | .ok r =>
      { err := none, res := some r,
        trace := s.trace ++ [dbCall true, Effect.incrementEventCount event] }
    | .error e =>
      retryLoop numRetries call dbCall event format (i + 1)
        { err := some e, res := none,
          trace := s.trace ++ [dbCall false, Effect.trackMongoDBErrors e,
            Effect.logPrintf format e i] }
  else s
termination_by (numRetries + 1 - i).toNat
decreasing_by omega

/-! ## `upsertDocument` (lines 26-57) -/

/-- The document built at lines 27-30: two fresh UUIDs and `rand.Intn(500000) + 1`. -/
def upsertDoc (env : Env) : Document :=
  { ID := env.uuid 0, Key := env.uuid 1, X := env.Intn 0 500000 + 1 }

/-- The context of line 32, built once per request. -/
def upsertCtx (config : Config) (env : Env) : Context :=
  WithTimeout env.now (wrap64 (config.UpsertContextTimeout * Millisecond))

/-- The retry loop of `upsertDocument` (lines 39-48), entered with `i = 1` and `err = nil`.
The call is `collection.UpdateOne(ctx, {key: doc.Key}, {$set: doc}, upsert = true)`. -/
def upsertLoop (numRetries : Int) (config : Config) (env : Env)
    (UpdateOne : Int → Except Err UpdateResult) : LoopState UpdateResult :=
  retryLoop numRetries UpdateOne
    (fun ok => Effect.UpdateOne (upsertCtx config env) (upsertDoc env).Key (upsertDoc env) true ok)
    "upsert" "upsert error: %+v, attempt %v" 1 { err := none, res := none, trace := [] }

/-- The handler `upsertDocument`. `UpdateOne i` is the outcome of the `i`-th
call `collection.UpdateOne(ctx, filter, update, opts)`. The deferred `cancel()`
runs when the handler returns. -/
def upsertDocument (numRetries : Int) (config : Config) (env : Env)
    (UpdateOne : Int → Except Err UpdateResult) : HandlerResult :=
  let doc := upsertDoc env
  let s := upsertLoop numRetries config env UpdateOne
  match s.err with
  | some err =>
    { w := httpError ResponseWriter.new err.Error StatusInternalServerError,
      trace := s.trace ++ [Effect.cancel], panicked := false }
  | none =>
    let w := ResponseWriter.new.WriteHeader StatusCreated
    let w := w.Write ("Created _id: " ++ doc.Key ++ "\n")
    { w := w, trace := s.trace ++ [Effect.cancel], panicked := false }

/-! ## `findDocuments` (lines 59-95) -/

/-- The counting loop of `findDocuments` (lines 86-92) over the documents the
cursor still yields: `for cursor.Next(ctx) { count++; if count >= 1000 { break } }`. -/
def countLoop {D : Type} : List D → Int → Int
  | [], count => count
  | _ :: rest, count =>
    let count := count + 1
    if count ≥ 1000 then count else countLoop rest count

/-- The context of line 60, built once per request. -/
def findCtx (config : Config) (env : Env) : Context :=
  WithTimeout env.now (wrap64 (config.FindContextTimeout * Millisecond))

/-- The retry loop of `findDocuments` (lines 68-78), entered with `i = 1`,
`err = nil` and `cursor = nil`. The call is `collection.Find(ctx, {x: randomX}, opts)`
with the projection on `_id` and `SetLimit(5)`. -/
def findLoop {D : Type} (numRetries : Int) (config : Config) (env : Env)
    (Find : Int → Except Err (Cursor D)) : LoopState (Cursor D) :=
  retryLoop numRetries Find
    (fun ok => Effect.Find (findCtx config env) (env.Intn 0 500000 + 1) 5 ok)
    "find" "find error: %+v, attempt %v" 1 { err := none, res := none, trace := [] }

/-- The handler `findDocuments`. `Find i` is the outcome of the `i`-th call
`collection.Find(ctx, filter, opts)`. When the loop runs no iteration, `cursor`
is still `nil` and `err` is `nil`: `cursor.Next` dereferences a nil pointer and
the handler panics. The deferred `cursor.Close(ctx)` and `cancel()` run when
the handler returns. -/
def findDocuments {D : Type} (numRetries : Int) (config : Config) (env : Env)
    (Find : Int → Except Err (Cursor D)) : HandlerResult :=
  let ctx := findCtx config env
  let s := findLoop numRetries config env Find
  match s.err with
  | some err =>
    { w := httpError ResponseWriter.new err.Error StatusInternalServerError,
      trace := s.trace ++ [Effect.cancel], panicked := false }
  | none =>
    match s.res with
    | none =>
      { w := ResponseWriter.new, trace := s.trace ++ [Effect.cancel], panicked := true }
    | some cursor =>
      let count := countLoop cursor.docs 0
      let w := ResponseWriter.new.Write
        ("Number of documents found: " ++ toString count ++ "\n")
      { w := w, trace := s.trace ++ [Effect.cursorClose ctx, Effect.cancel],
        panicked := false }

/-! ## `aggSampleGroup` (lines 97-150) -/

/-- The context of line 98, built once per request. -/
def aggCtx (config : Config) (env : Env) : Context :=
  WithTimeout env.now (wrap64 (config.AggContextTimeout * Millisecond))

/-- The handler `aggSampleGroup`. `Aggregate` is the outcome of the single call
`collection.Aggregate(ctx, pipeline)`; a document of the cursor is given by
what `cursor.Decode(&result)` makes of it. A negative `numRandomValues` makes
`make([]int, numRandomValues)` panic before the pipeline is built: only the
deferred `cancel()` runs and nothing is written. -/
def aggSampleGroup (config : Config) (env : Env)
    (Aggregate : Except Err (Cursor (Except Err AggregationResult))) : HandlerResult :=
  let ctx := aggCtx config env
  let numRandomValues := config.AggInQuerySize
  if numRandomValues < 0 then
    { w := ResponseWriter.new, trace := [Effect.cancel], panicked := true }
  else
    let randomXValues :=
      (List.range numRandomValues.toNat).map (fun i => env.Intn i 500000 + 1)
    match Aggregate with
    | .error err =>
      { w := httpError ResponseWriter.new err.Error StatusInternalServerError,
        trace := [Effect.Aggregate ctx randomXValues false, Effect.cancel],
        panicked := false }
    | .ok cursor =>
      let trace :=
        [Effect.Aggregate ctx randomXValues true, Effect.cursorClose ctx, Effect.cancel]
      let decoded : Except Err AggregationResult :=
        match cursor.Next with
        | (some row, _) => row
        | (none, _) => .ok AggregationResult.zero
      match decoded with
      | .error err =>
        { w := httpError ResponseWriter.new err.Error StatusInternalServerError,
          trace := trace, panicked := false }
      | .ok result =>
        match env.Marshal result with
        | .error err =>
          { w := httpError ResponseWriter.new err.Error StatusInternalServerError,
            trace := trace, panicked := false }
        | .ok responseJSON =>
          let w := ResponseWriter.new.SetHeader "Content-Type" "application/json"
          let w := w.WriteHeader StatusOK
          let w := w.Write responseJSON
          { w := w, trace := trace, panicked := false }

/-! ## Sample inputs -/

/-- A configuration with 100 ms timeouts and an aggregation sample of two values. -/
def sampleConfig : Config := ⟨100, 100, 100, 2⟩

/-- A configuration whose aggregation sample size is negative. -/
def negativeSampleConfig : Config := ⟨100, 100, 100, -1⟩

/-- JSON text of the zero-value `AggregationResult`, as `json.Marshal` renders it. -/
def zeroJSON : String :=
  "\x7b\"minid\":\"\",\"maxid\":\"\",\"minkey\":\"\",\"maxkey\":\"\",\"xavg\":0\x7d"

/-- An environment: clock at 0, document id `id-0` and key `key-1`, a constant
random stream, and a `json.Marshal` that succeeds. -/
def sampleEnv : Env :=
  { now := 0
    uuid := fun n => if n = 0 then "id-0" else "key-1"
    rand := fun _ => 41
    Marshal := fun r => if r = AggregationResult.zero then .ok zeroJSON else .ok "row" }

/-- `UpdateOne` fails at attempts 1 and 2 and succeeds at attempt 3. -/
def failTwiceThenOk : Int → Except Err UpdateResult := fun i =>
  if i = 1 then .error (.other "first")
  else if i = 2 then .error .DeadlineExceeded
  else .ok ⟨0, 0, 1⟩

/-- `Find` fails at attempts 1 and 2 and returns a cursor over three documents at attempt 3. -/
def findFailTwiceThenOk : Int → Except Err (Cursor String) := fun i =>
  if i = 1 then .error (.other "first")
  else if i = 2 then .error .DeadlineExceeded
  else .ok ⟨["a", "b", "c"], none⟩

/-- `UpdateOne` fails at every attempt, each time with another error. -/
def distinctFailures : Int → Except Err UpdateResult := fun i =>
  if i = 1 then .error (.other "first")
  else if i = 2 then .error (.other "second")
  else .error (.other "third")

/-- `Find` fails at every attempt, each time with another error. -/
def findDistinctFailures : Int → Except Err (Cursor String) := fun i =>
  if i = 1 then .error (.other "first")
  else if i = 2 then .error (.other "second")
  else .error (.other "third")

/-- `UpdateOne` fails at every attempt because the deadline has elapsed. -/
def deadlineElapsed : Int → Except Err UpdateResult := fun _ => .error .DeadlineExceeded

/-- `Find` fails at every attempt because the deadline has elapsed. -/
def findDeadlineElapsed : Int → Except Err (Cursor String) := fun _ => .error .DeadlineExceeded

/-- An `Aggregate` cursor that yields no row because its iteration failed:
`cursor.Next` returns `false` and `cursor.Err()` holds the error. -/
def brokenCursor : Cursor (Except Err AggregationResult) :=
  ⟨[], some (.other "connection reset by peer")⟩

/-- An `Aggregate` cursor over no matching document. -/
def emptyCursor : Cursor (Except Err AggregationResult) := ⟨[], none⟩

/-! ## The retry loop, one step at a time -/

/-- What the trace counters need to know of the trace entry of a database call. -/
structure DbCallEntry (dbCall : Bool → Effect) : Prop where
  isDb : ∀ b, (dbCall b).isDbCall = true
  failed : ∀ b, (dbCall b).isFailedDbCall = !b
  succeeded : ∀ b, (dbCall b).isOkDbCall = b
  notTrack : ∀ b, (dbCall b).isTrack = false
  notEvent : ∀ b, (dbCall b).isEvent = false

theorem DbCallEntry.ne_event {dbCall : Bool → Effect} (h : DbCallEntry dbCall) (b : Bool)
    (name : String) : dbCall b ≠ Effect.incrementEventCount name := by
  intro hEq
  have h1 := h.notEvent b
  rw [hEq] at h1
  simp [Effect.isEvent] at h1

theorem updateOne_entry (ctx : Context) (key : String) (doc : Document) (upsert : Bool) :
    DbCallEntry (fun ok => Effect.UpdateOne ctx key doc upsert ok) :=
  ⟨fun _ => rfl, fun _ => rfl, fun _ => rfl, fun _ => rfl, fun _ => rfl⟩

theorem find_entry (ctx : Context) (x limit : Int) :
    DbCallEntry (fun ok => Effect.Find ctx x limit ok) :=
  ⟨fun _ => rfl, fun _ => rfl, fun _ => rfl, fun _ => rfl, fun _ => rfl⟩

section Loop

variable {R : Type} (numRetries : Int) (call : Int → Except Err R)
  (dbCall : Bool → Effect) (event format : String)

theorem retryLoop_done (i : Int) (s : LoopState R) (h : ¬ i ≤ numRetries) :
    retryLoop numRetries call dbCall event format i s = s := by
  rw [retryLoop]
  simp [h]

theorem retryLoop_ok (i : Int) (s : LoopState R) (h : i ≤ numRetries) (r : R)
    (hc : call i = .ok r) :
    retryLoop numRetries call dbCall event format i s =
      { err := none, res := some r,
        trace := s.trace ++ [dbCall true, Effect.incrementEventCount event] } := by
  rw [retryLoop]
  simp [h, hc]

theorem retryLoop_error (i : Int) (s : LoopState R) (h : i ≤ numRetries) (e : Err)
    (hc : call i = .error e) :
    retryLoop numRetries call dbCall event format i s =
      retryLoop numRetries call dbCall event format (i + 1)
        { err := some e, res := none,
          trace := s.trace ++ [dbCall false, Effect.trackMongoDBErrors e,
            Effect.logPrintf format e i] } := by
  rw [retryLoop]
  simp [h, hc]

end Loop

/-! ## Counting in traces -/

theorem dbCalls_append (t u : List Effect) : dbCalls (t ++ u) = dbCalls t + dbCalls u := by
  simp [dbCalls, List.countP_append]

theorem failedDbCalls_append (t u : List Effect) :
    failedDbCalls (t ++ u) = failedDbCalls t + failedDbCalls u := by
  simp [failedDbCalls, List.countP_append]

theorem trackCalls_append (t u : List Effect) :
    trackCalls (t ++ u) = trackCalls t + trackCalls u := by
  simp [trackCalls, List.countP_append]

theorem eventCalls_append (t u : List Effect) :
    eventCalls (t ++ u) = eventCalls t + eventCalls u := by
  simp [eventCalls, List.countP_append]

theorem eventCallsOf_append (name : String) (t u : List Effect) :
    eventCallsOf name (t ++ u) = eventCallsOf name t + eventCallsOf name u := by
  simp [eventCallsOf, List.count_append]

/-- The entries one failed attempt adds to the trace. -/
theorem failed_attempt_counts {dbCall : Bool → Effect} (hdb : DbCallEntry dbCall)
    (format name : String) (e : Err) (i : Int) :
    dbCalls [dbCall false, Effect.trackMongoDBErrors e, Effect.logPrintf format e i] = 1 ∧
    failedDbCalls [dbCall false, Effect.trackMongoDBErrors e, Effect.logPrintf format e i] = 1 ∧
    trackCalls [dbCall false, Effect.trackMongoDBErrors e, Effect.logPrintf format e i] = 1 ∧
    eventCalls [dbCall false, Effect.trackMongoDBErrors e, Effect.logPrintf format e i] = 0 ∧
    eventCallsOf name
      [dbCall false, Effect.trackMongoDBErrors e, Effect.logPrintf format e i] = 0 := by
  have hne := hdb.ne_event false name
  refine ⟨?_, ?_, ?_, ?_, ?_⟩
  · simp only [dbCalls, List.countP_cons, List.countP_nil, hdb.isDb]
    rfl
  · simp only [failedDbCalls, List.countP_cons, List.countP_nil, hdb.failed]
    rfl
  · simp only [trackCalls, List.countP_cons, List.countP_nil, hdb.notTrack]
    rfl
  · simp only [eventCalls, List.countP_cons, List.countP_nil, hdb.notEvent]
    rfl
  · simp [eventCallsOf, List.count_cons, hne]

/-- The entries the successful attempt adds to the trace. -/
theorem ok_attempt_counts {dbCall : Bool → Effect} (hdb : DbCallEntry dbCall)
    (event : String) :
    dbCalls [dbCall true, Effect.incrementEventCount event] = 1 ∧
    failedDbCalls [dbCall true, Effect.incrementEventCount event] = 0 ∧
    trackCalls [dbCall true, Effect.incrementEventCount event] = 0 ∧
    eventCalls [dbCall true, Effect.incrementEventCount event] = 1 ∧
    eventCallsOf event [dbCall true, Effect.incrementEventCount event] = 1 := by
  have hne := hdb.ne_event true event
  refine ⟨?_, ?_, ?_, ?_, ?_⟩
  · simp only [dbCalls, List.countP_cons, List.countP_nil, hdb.isDb]
    rfl
  · simp only [failedDbCalls, List.countP_cons, List.countP_nil, hdb.failed]
    rfl
  · simp only [trackCalls, List.countP_cons, List.countP_nil, hdb.notTrack]
    rfl
  · simp only [eventCalls, List.countP_cons, List.countP_nil, hdb.notEvent]
    rfl
  · simp [eventCallsOf, List.count_cons, hne]

/-! ## The retry loop: what a whole run does -/

section LoopRun

variable {R : Type} (numRetries : Int) (call : Int → Except Err R)
  (dbCall : Bool → Effect) (event format : String)

/-- Attempts `i .. i+k-1` fail and attempt `i+k` succeeds: the loop stops there. -/
theorem retryLoop_success (hdb : DbCallEntry dbCall) (r : R) :
    ∀ (k : Nat) (i : Int) (s : LoopState R), i + k ≤ numRetries →
      (∀ j : Int, i ≤ j → j < i + k → ∃ e, call j = .error e) →
      call (i + k) = .ok r →
      (retryLoop numRetries call dbCall event format i s).err = none ∧
      (retryLoop numRetries call dbCall event format i s).res = some r ∧
      dbCalls (retryLoop numRetries call dbCall event format i s).trace
        = dbCalls s.trace + (k + 1) ∧
      failedDbCalls (retryLoop numRetries call dbCall event format i s).trace
        = failedDbCalls s.trace + k ∧
      trackCalls (retryLoop numRetries call dbCall event format i s).trace
        = trackCalls s.trace + k ∧
      eventCalls (retryLoop numRetries call dbCall event format i s).trace
        = eventCalls s.trace + 1 ∧
      eventCallsOf event (retryLoop numRetries call dbCall event format i s).trace
        = eventCallsOf event s.trace + 1 := by
  intro k
  induction k with
  | zero =>
    intro i s hle _ hok
    simp only [Nat.cast_zero, add_zero] at hle hok
    rw [retryLoop_ok numRetries call dbCall event format i s hle r hok]
    obtain ⟨c1, c2, c3, c4, c5⟩ := ok_attempt_counts hdb event
    refine ⟨rfl, rfl, ?_, ?_, ?_, ?_, ?_⟩
    · show dbCalls (s.trace ++ _) = _
      rw [dbCalls_append, c1]
    · show failedDbCalls (s.trace ++ _) = _
      rw [failedDbCalls_append, c2]
    · show trackCalls (s.trace ++ _) = _
      rw [trackCalls_append, c3]
    · show eventCalls (s.trace ++ _) = _
      rw [eventCalls_append, c4]
    · show eventCallsOf event (s.trace ++ _) = _
      rw [eventCallsOf_append, c5]
  | succ k ih =>
    intro i s hle hfail hok
    have hi : i ≤ numRetries := by push_cast at hle; omega
    obtain ⟨e, he⟩ := hfail i (le_refl i) (by push_cast; omega)
    rw [retryLoop_error numRetries call dbCall event format i s hi e he]
    have hok2 : call (i + 1 + (k : Int)) = .ok r := by
      have : i + 1 + (k : Int) = i + ((k + 1 : Nat) : Int) := by push_cast; ring
      rw [this]; exact hok
    have h := ih (i + 1)
      { err := some e, res := none,
        trace := s.trace ++ [dbCall false, Effect.trackMongoDBErrors e,
          Effect.logPrintf format e i] }
      (by push_cast at hle; omega)
      (fun j h1 h2 => hfail j (by omega) (by push_cast; omega)) hok2
    obtain ⟨h1, h2, h3, h4, h5, h6, h7⟩ := h
    obtain ⟨c1, c2, c3, c4, c5⟩ := failed_attempt_counts hdb format event e i
    simp only [dbCalls_append, failedDbCalls_append, trackCalls_append, eventCalls_append,
      eventCallsOf_append, c1, c2, c3, c4, c5] at h3 h4 h5 h6 h7
    refine ⟨h1, h2, ?_, ?_, ?_, ?_, ?_⟩
    · omega
    · omega
    · omega
    · omega
    · omega

/-- Attempts `i .. numRetries` all fail (`numRetries = i + k`): the loop runs
to the ceiling and keeps the error of attempt `numRetries`. -/
theorem retryLoop_exhausted (hdb : DbCallEntry dbCall) :
    ∀ (k : Nat) (i : Int) (s : LoopState R), i + k = numRetries →
      (∀ j : Int, i ≤ j → j ≤ numRetries → ∃ e, call j = .error e) →
      (∀ e, call numRetries = .error e →
        (retryLoop numRetries call dbCall event format i s).err = some e) ∧
      (retryLoop numRetries call dbCall event format i s).res = none ∧
      dbCalls (retryLoop numRetries call dbCall event format i s).trace
        = dbCalls s.trace + (k + 1) ∧
      failedDbCalls (retryLoop numRetries call dbCall event format i s).trace
        = failedDbCalls s.trace + (k + 1) ∧
      trackCalls (retryLoop numRetries call dbCall event format i s).trace
        = trackCalls s.trace + (k + 1) ∧
      eventCalls (retryLoop numRetries call dbCall event format i s).trace
        = eventCalls s.trace := by
  intro k
  induction k with
  | zero =>
    intro i s hEq hfail
    simp only [Nat.cast_zero, add_zero] at hEq
    subst hEq
    obtain ⟨e, he⟩ := hfail i (le_refl i) (le_refl i)
    rw [retryLoop_error i call dbCall event format i s (le_refl i) e he]
    rw [retryLoop_done i call dbCall event format (i + 1) _ (by omega)]
    obtain ⟨c1, c2, c3, c4, _⟩ := failed_attempt_counts hdb format event e i
    refine ⟨?_, rfl, ?_, ?_, ?_, ?_⟩
    · intro e2 he2
      rw [he] at he2
      cases he2
      rfl
    · show dbCalls (s.trace ++ _) = _
      rw [dbCalls_append, c1]
    · show failedDbCalls (s.trace ++ _) = _
      rw [failedDbCalls_append, c2]
    · show trackCalls (s.trace ++ _) = _
      rw [trackCalls_append, c3]
    · show eventCalls (s.trace ++ _) = _
      rw [eventCalls_append, c4]
      rfl
  | succ k ih =>
    intro i s hEq hfail
    have hi : i ≤ numRetries := by push_cast at hEq; omega
    obtain ⟨e, he⟩ := hfail i (le_refl i) hi
    rw [retryLoop_error numRetries call dbCall event format i s hi e he]
    have h := ih (i + 1)
      { err := some e, res := none,
        trace := s.trace ++ [dbCall false, Effect.trackMongoDBErrors e,
          Effect.logPrintf format e i] }
      (by push_cast at hEq; omega)
      (fun j h1 h2 => hfail j (by omega) h2)
    obtain ⟨h1, h2, h3, h4, h5, h6⟩ := h
    obtain ⟨c1, c2, c3, c4, _⟩ := failed_attempt_counts hdb format event e i
    simp only [dbCalls_append, failedDbCalls_append, trackCalls_append, eventCalls_append,
      c1, c2, c3, c4] at h3 h4 h5 h6
    refine ⟨h1, h2, ?_, ?_, ?_, ?_⟩
    · omega
    · omega
    · omega
    · omega

end LoopRun

/-! ## The retry loop: invariants -/

section LoopInvariant

variable {R : Type} (numRetries : Int) (call : Int → Except Err R)
  (dbCall : Bool → Effect) (event format : String)

/-- A property of the loop variables that every iteration preserves holds when the loop ends. -/
theorem retryLoop_invariant (P : LoopState R → Prop)
    (hok : ∀ (s : LoopState R) (r : R), P s →
      P { err := none, res := some r,
          trace := s.trace ++ [dbCall true, Effect.incrementEventCount event] })
    (herr : ∀ (s : LoopState R) (e : Err) (i : Int), P s →
      P { err := some e, res := none,
          trace := s.trace ++ [dbCall false, Effect.trackMongoDBErrors e,
            Effect.logPrintf format e i] }) :
    ∀ (n : Nat) (i : Int) (s : LoopState R), (numRetries + 1 - i).toNat = n → P s →
      P (retryLoop numRetries call dbCall event format i s) := by
  intro n
  induction n with
  | zero =>
    intro i s hn hs
    rw [retryLoop_done numRetries call dbCall event format i s (by omega)]
    exact hs
  | succ n ih =>
    intro i s hn hs
    have hi : i ≤ numRetries := by omega
    cases hc : call i with
    | ok r =>
      rw [retryLoop_ok numRetries call dbCall event format i s hi r hc]
      exact hok s r hs
    | error e =>
      rw [retryLoop_error numRetries call dbCall event format i s hi e hc]
      exact ih (i + 1) _ (by omega) (herr s e i hs)

/-- Every failed database call of the loop is followed by one `trackMongoDBErrors`. -/
theorem retryLoop_track_eq_failed (hdb : DbCallEntry dbCall) (i : Int) (s : LoopState R)
    (hs : trackCalls s.trace = failedDbCalls s.trace) :
    trackCalls (retryLoop numRetries call dbCall event format i s).trace
      = failedDbCalls (retryLoop numRetries call dbCall event format i s).trace := by
  refine retryLoop_invariant numRetries call dbCall event format
    (fun s => trackCalls s.trace = failedDbCalls s.trace) ?_ ?_ _ i s rfl hs
  · intro s r h
    obtain ⟨_, c2, c3, _, _⟩ := ok_attempt_counts hdb event
    show trackCalls (s.trace ++ _) = failedDbCalls (s.trace ++ _)
    rw [trackCalls_append, failedDbCalls_append, c2, c3, h]
  · intro s e j h
    obtain ⟨_, c2, c3, _, _⟩ := failed_attempt_counts hdb format event e j
    show trackCalls (s.trace ++ _) = failedDbCalls (s.trace ++ _)
    rw [trackCalls_append, failedDbCalls_append, c2, c3, h]

/-- Every successful database call of the loop is followed by one `incrementEventCount`. -/
theorem retryLoop_event_eq_ok (hdb : DbCallEntry dbCall) (i : Int) (s : LoopState R)
    (hs : eventCalls s.trace + failedDbCalls s.trace = dbCalls s.trace) :
    eventCalls (retryLoop numRetries call dbCall event format i s).trace
      + failedDbCalls (retryLoop numRetries call dbCall event format i s).trace
      = dbCalls (retryLoop numRetries call dbCall event format i s).trace := by
  refine retryLoop_invariant numRetries call dbCall event format
    (fun s => eventCalls s.trace + failedDbCalls s.trace = dbCalls s.trace) ?_ ?_ _ i s rfl hs
  · intro s r h
    obtain ⟨c1, c2, _, c4, _⟩ := ok_attempt_counts hdb event
    show eventCalls (s.trace ++ _) + failedDbCalls (s.trace ++ _) = dbCalls (s.trace ++ _)
    rw [eventCalls_append, failedDbCalls_append, dbCalls_append, c1, c2, c4]
    omega
  · intro s e j h
    obtain ⟨c1, c2, _, c4, _⟩ := failed_attempt_counts hdb format event e j
    show eventCalls (s.trace ++ _) + failedDbCalls (s.trace ++ _) = dbCalls (s.trace ++ _)
    rw [eventCalls_append, failedDbCalls_append, dbCalls_append, c1, c2, c4]
    omega

/-- The loop only appends to the trace: the database calls already made stay counted. -/
theorem retryLoop_dbCalls_mono (i : Int) (s : LoopState R) :
    dbCalls s.trace ≤ dbCalls (retryLoop numRetries call dbCall event format i s).trace := by
  refine retryLoop_invariant numRetries call dbCall event format
    (fun s2 => dbCalls s.trace ≤ dbCalls s2.trace) ?_ ?_ _ i s rfl (le_refl _)
  · intro s2 r h
    show _ ≤ dbCalls (s2.trace ++ _)
    rw [dbCalls_append]
    omega
  · intro s2 e j h
    show _ ≤ dbCalls (s2.trace ++ _)
    rw [dbCalls_append]
    omega

/-- A property of trace entries that holds of what an iteration appends holds
of the whole trace when the loop ends. -/
theorem retryLoop_forall (Q : Effect → Prop) (hdbQ : ∀ b, Q (dbCall b))
    (hev : Q (Effect.incrementEventCount event))
    (htr : ∀ e, Q (Effect.trackMongoDBErrors e))
    (hlog : ∀ e j, Q (Effect.logPrintf format e j))
    (i : Int) (s : LoopState R) (hs : ∀ e ∈ s.trace, Q e) :
    ∀ e ∈ (retryLoop numRetries call dbCall event format i s).trace, Q e := by
  refine retryLoop_invariant numRetries call dbCall event format
    (fun s => ∀ e ∈ s.trace, Q e) ?_ ?_ _ i s rfl hs
  · intro s r h e he
    simp only [List.mem_append, List.mem_cons, List.mem_singleton, List.not_mem_nil,
      or_false] at he
    rcases he with he | he | he
    · exact h e he
    · subst he; exact hdbQ true
    · subst he; exact hev
  · intro s e0 j h e he
    simp only [List.mem_append, List.mem_cons, List.mem_singleton, List.not_mem_nil,
      or_false] at he
    rcases he with he | he | he | he
    · exact h e he
    · subst he; exact hdbQ false
    · subst he; exact htr e0
    · subst he; exact hlog e0 j

/-- Every database call of the loop is issued with the context fixed in `dbCall`. -/
theorem retryLoop_ctx (ctx : Context) (hctx : ∀ b, (dbCall b).ctx? = some ctx)
    (i : Int) (s : LoopState R)
    (hs : ∀ e ∈ s.trace, ∀ c, e.ctx? = some c → c = ctx) :
    ∀ e ∈ (retryLoop numRetries call dbCall event format i s).trace,
      ∀ c, e.ctx? = some c → c = ctx := by
  refine retryLoop_invariant numRetries call dbCall event format
    (fun s => ∀ e ∈ s.trace, ∀ c, e.ctx? = some c → c = ctx) ?_ ?_ _ i s rfl hs
  · intro s r h e he c hc
    simp only [List.mem_append, List.mem_cons, List.mem_singleton, List.not_mem_nil,
      or_false] at he
    rcases he with he | he | he
    · exact h e he c hc
    · subst he
      rw [hctx] at hc
      exact (Option.some.inj hc).symm
    · subst he
      simp [Effect.ctx?] at hc
  · intro s e0 j h e he c hc
    simp only [List.mem_append, List.mem_cons, List.mem_singleton, List.not_mem_nil,
      or_false] at he
    rcases he with he | he | he | he
    · exact h e he c hc
    · subst he
      rw [hctx] at hc
      exact (Option.some.inj hc).symm
    · subst he
      simp [Effect.ctx?] at hc
    · subst he
      simp [Effect.ctx?] at hc

/-- Some attempt within the ceiling succeeds: the loop ends with `err == nil`
and with the value of a successful call. -/
theorem retryLoop_some_ok :
    ∀ (n : Nat) (i : Int) (s : LoopState R), (numRetries + 1 - i).toNat = n →
      (∃ m : Int, i ≤ m ∧ m ≤ numRetries ∧ ∃ r, call m = .ok r) →
      (retryLoop numRetries call dbCall event format i s).err = none ∧
      ∃ r, (retryLoop numRetries call dbCall event format i s).res = some r := by
  intro n
  induction n with
  | zero =>
    intro i s hn hex
    obtain ⟨m, h1, h2, _⟩ := hex
    omega
  | succ n ih =>
    intro i s hn hex
    have hi : i ≤ numRetries := by omega
    cases hc : call i with
    | ok r =>
      rw [retryLoop_ok numRetries call dbCall event format i s hi r hc]
      exact ⟨rfl, r, rfl⟩
    | error e =>
      rw [retryLoop_error numRetries call dbCall event format i s hi e hc]
      obtain ⟨m, h1, h2, r, hr⟩ := hex
      have hne : m ≠ i := by
        intro hEq
        rw [hEq, hc] at hr
        cases hr
      exact ih (i + 1) _ (by omega) ⟨m, by omega, h2, r, hr⟩

/-- The loop ran at least one iteration and ended with `err == nil`: one of its
database calls succeeded. -/
theorem retryLoop_err_none (hdb : DbCallEntry dbCall) :
    ∀ (n : Nat) (i : Int) (s : LoopState R), (numRetries - i).toNat = n → i ≤ numRetries →
      (retryLoop numRetries call dbCall event format i s).err = none →
      ∃ e ∈ (retryLoop numRetries call dbCall event format i s).trace, e.isOkDbCall = true := by
  intro n
  induction n with
  | zero =>
    intro i s hn hi hnone
    cases hc : call i with
    | ok r =>
      rw [retryLoop_ok numRetries call dbCall event format i s hi r hc]
      exact ⟨dbCall true, by simp, hdb.succeeded true⟩
    | error e =>
      rw [retryLoop_error numRetries call dbCall event format i s hi e hc,
        retryLoop_done numRetries call dbCall event format (i + 1) _ (by omega)] at hnone
      cases hnone
  | succ n ih =>
    intro i s hn hi hnone
    cases hc : call i with
    | ok r =>
      rw [retryLoop_ok numRetries call dbCall event format i s hi r hc]
      exact ⟨dbCall true, by simp, hdb.succeeded true⟩
    | error e =>
      rw [retryLoop_error numRetries call dbCall event format i s hi e hc] at hnone ⊢
      exact ih (i + 1) _ (by omega) (by omega) hnone

/-- The first `k` attempts from `i` fail and the ceiling is not reached: a
further database call is issued. -/
theorem retryLoop_continues (hdb : DbCallEntry dbCall) :
    ∀ (k : Nat) (i : Int) (s : LoopState R), i + k ≤ numRetries →
      (∀ j : Int, i ≤ j → j < i + k → ∃ e, call j = .error e) →
      dbCalls s.trace + (k + 1)
        ≤ dbCalls (retryLoop numRetries call dbCall event format i s).trace := by
  intro k
  induction k with
  | zero =>
    intro i s hle _
    simp only [Nat.cast_zero, add_zero] at hle
    cases hc : call i with
    | ok r =>
      rw [retryLoop_ok numRetries call dbCall event format i s hle r hc]
      obtain ⟨c1, _, _, _, _⟩ := ok_attempt_counts hdb event
      show _ ≤ dbCalls (s.trace ++ _)
      rw [dbCalls_append, c1]
    | error e =>
      rw [retryLoop_error numRetries call dbCall event format i s hle e hc]
      obtain ⟨c1, _, _, _, _⟩ := failed_attempt_counts hdb format event e i
      have h := retryLoop_dbCalls_mono numRetries call dbCall event format (i + 1)
        { err := some e, res := none,
          trace := s.trace ++ [dbCall false, Effect.trackMongoDBErrors e,
            Effect.logPrintf format e i] }
      simp only [dbCalls_append, c1] at h
      omega
  | succ k ih =>
    intro i s hle hfail
    have hi : i ≤ numRetries := by push_cast at hle; omega
    obtain ⟨e, he⟩ := hfail i (le_refl i) (by push_cast; omega)
    rw [retryLoop_error numRetries call dbCall event format i s hi e he]
    obtain ⟨c1, _, _, _, _⟩ := failed_attempt_counts hdb format event e i
    have h := ih (i + 1)
      { err := some e, res := none,
        trace := s.trace ++ [dbCall false, Effect.trackMongoDBErrors e,
          Effect.logPrintf format e i] }
      (by push_cast at hle; omega)
      (fun j h1 h2 => hfail j (by omega) (by push_cast; omega))
    simp only [dbCalls_append, c1] at h
    omega

end LoopInvariant

/-! ## Responses -/

/-- The response `http.Error` leaves on a fresh writer. -/
theorem httpError_new (msg : String) (code : Nat) :
    httpError ResponseWriter.new msg code =
      { header := [("Content-Type", "text/plain; charset=utf-8"),
          ("X-Content-Type-Options", "nosniff")],
        status := some code, body := msg ++ "\n", headerWrites := 1 } := by
  simp [httpError, ResponseWriter.new, ResponseWriter.DelHeader, ResponseWriter.SetHeader,
    ResponseWriter.WriteHeader, ResponseWriter.Write]

/-- The response after `w.WriteHeader(code)` and one write on a fresh writer. -/
theorem writeHeader_write_new (code : Nat) (text : String) :
    (ResponseWriter.new.WriteHeader code).Write text =
      { header := [], status := some code, body := text, headerWrites := 1 } := by
  simp [ResponseWriter.new, ResponseWriter.WriteHeader, ResponseWriter.Write]

/-- The response after one write on a fresh writer: the status defaults to 200. -/
theorem write_new (text : String) :
    ResponseWriter.new.Write text =
      { header := [], status := some 200, body := text, headerWrites := 1 } := by
  simp [ResponseWriter.new, ResponseWriter.WriteHeader, ResponseWriter.Write]

/-! ## The handlers in terms of their loops -/

theorem upsertDocument_trace (numRetries : Int) (config : Config) (env : Env)
    (UpdateOne : Int → Except Err UpdateResult) :
    (upsertDocument numRetries config env UpdateOne).trace
      = (upsertLoop numRetries config env UpdateOne).trace ++ [Effect.cancel] := by
  simp only [upsertDocument]
  split <;> rfl

theorem upsertDocument_w_ok (numRetries : Int) (config : Config) (env : Env)
    (UpdateOne : Int → Except Err UpdateResult)
    (h : (upsertLoop numRetries config env UpdateOne).err = none) :
    (upsertDocument numRetries config env UpdateOne).w =
      { header := [], status := some 201,
        body := "Created _id: " ++ (upsertDoc env).Key ++ "\n", headerWrites := 1 } := by
  simp only [upsertDocument, h]
  exact writeHeader_write_new StatusCreated _

theorem upsertDocument_w_err (numRetries : Int) (config : Config) (env : Env)
    (UpdateOne : Int → Except Err UpdateResult) (e : Err)
    (h : (upsertLoop numRetries config env UpdateOne).err = some e) :
    (upsertDocument numRetries config env UpdateOne).w =
      { header := [("Content-Type", "text/plain; charset=utf-8"),
          ("X-Content-Type-Options", "nosniff")],
        status := some 500, body := e.Error ++ "\n", headerWrites := 1 } := by
  simp only [upsertDocument, h]
  exact httpError_new e.Error StatusInternalServerError

theorem findDocuments_w_ok {D : Type} (numRetries : Int) (config : Config) (env : Env)
    (Find : Int → Except Err (Cursor D)) (cursor : Cursor D)
    (h : (findLoop numRetries config env Find).err = none)
    (hr : (findLoop numRetries config env Find).res = some cursor) :
    (findDocuments numRetries config env Find).w =
      { header := [], status := some 200,
        body := "Number of documents found: " ++ toString (countLoop cursor.docs 0) ++ "\n",
        headerWrites := 1 } ∧
    (findDocuments numRetries config env Find).panicked = false ∧
    (findDocuments numRetries config env Find).trace =
      (findLoop numRetries config env Find).trace
        ++ [Effect.cursorClose (findCtx config env), Effect.cancel] := by
  simp only [findDocuments, h, hr]
  exact ⟨write_new _, trivial, trivial⟩

theorem findDocuments_w_err {D : Type} (numRetries : Int) (config : Config) (env : Env)
    (Find : Int → Except Err (Cursor D)) (e : Err)
    (h : (findLoop numRetries config env Find).err = some e) :
    (findDocuments numRetries config env Find).w =
      { header := [("Content-Type", "text/plain; charset=utf-8"),
          ("X-Content-Type-Options", "nosniff")],
        status := some 500, body := e.Error ++ "\n", headerWrites := 1 } ∧
    (findDocuments numRetries config env Find).trace =
      (findLoop numRetries config env Find).trace ++ [Effect.cancel] := by
  simp only [findDocuments, h]
  exact ⟨httpError_new e.Error StatusInternalServerError, trivial⟩

/-- Whatever path `findDocuments` takes, it adds no database call, no
`trackMongoDBErrors` and no `incrementEventCount` to what its loop did. -/
theorem findDocuments_counts {D : Type} (numRetries : Int) (config : Config) (env : Env)
    (Find : Int → Except Err (Cursor D)) :
    dbCalls (findDocuments numRetries config env Find).trace
      = dbCalls (findLoop numRetries config env Find).trace ∧
    failedDbCalls (findDocuments numRetries config env Find).trace
      = failedDbCalls (findLoop numRetries config env Find).trace ∧
    trackCalls (findDocuments numRetries config env Find).trace
      = trackCalls (findLoop numRetries config env Find).trace ∧
    eventCalls (findDocuments numRetries config env Find).trace
      = eventCalls (findLoop numRetries config env Find).trace ∧
    ∀ name, eventCallsOf name (findDocuments numRetries config env Find).trace
      = eventCallsOf name (findLoop numRetries config env Find).trace := by
  simp only [findDocuments]
  split
  · simp [dbCalls, failedDbCalls, trackCalls, eventCalls, eventCallsOf, List.countP_append,
      List.count_append, List.countP_cons, List.count_cons, Effect.isDbCall,
      Effect.isFailedDbCall, Effect.isTrack, Effect.isEvent]
  · split
    · simp [dbCalls, failedDbCalls, trackCalls, eventCalls, eventCallsOf, List.countP_append,
        List.count_append, List.countP_cons, List.count_cons, Effect.isDbCall,
        Effect.isFailedDbCall, Effect.isTrack, Effect.isEvent]
    · simp [dbCalls, failedDbCalls, trackCalls, eventCalls, eventCallsOf, List.countP_append,
        List.count_append, List.countP_cons, List.count_cons, Effect.isDbCall,
        Effect.isFailedDbCall, Effect.isTrack, Effect.isEvent]

/-- The deferred `cancel()` of `upsertDocument` adds nothing to the counters. -/
theorem upsertDocument_counts (numRetries : Int) (config : Config) (env : Env)
    (UpdateOne : Int → Except Err UpdateResult) :
    dbCalls (upsertDocument numRetries config env UpdateOne).trace
      = dbCalls (upsertLoop numRetries config env UpdateOne).trace ∧
    failedDbCalls (upsertDocument numRetries config env UpdateOne).trace
      = failedDbCalls (upsertLoop numRetries config env UpdateOne).trace ∧
    trackCalls (upsertDocument numRetries config env UpdateOne).trace
      = trackCalls (upsertLoop numRetries config env UpdateOne).trace ∧
    eventCalls (upsertDocument numRetries config env UpdateOne).trace
      = eventCalls (upsertLoop numRetries config env UpdateOne).trace ∧
    ∀ name, eventCallsOf name (upsertDocument numRetries config env UpdateOne).trace
      = eventCallsOf name (upsertLoop numRetries config env UpdateOne).trace := by
  rw [upsertDocument_trace]
  simp [dbCalls, failedDbCalls, trackCalls, eventCalls, eventCallsOf, List.countP_append,
    List.count_append, List.countP_cons, List.count_cons, Effect.isDbCall,
    Effect.isFailedDbCall, Effect.isTrack, Effect.isEvent]

/-! ## The counting loop -/

/-- From a count below 1000 the counting loop ends at `min 1000 (count + n)`,
`n` being the number of documents the cursor still yields. -/
theorem countLoop_eq {D : Type} :
    ∀ (docs : List D) (count : Int), 0 ≤ count → count < 1000 →
      countLoop docs count = min 1000 (count + docs.length) := by
  intro docs
  induction docs with
  | nil =>
    intro count _ h2
    simp only [countLoop, List.length_nil, Nat.cast_zero, add_zero]
    omega
  | cons d rest ih =>
    intro count h1 h2
    simp only [countLoop, List.length_cons, Nat.cast_add, Nat.cast_one]
    by_cases h : count + 1 ≥ 1000
    · simp only [h, if_true]
      omega
    · simp only [h, if_false]
      rw [ih (count + 1) (by omega) (by omega)]
      omega

/-! ## How many database calls a retrying handler makes -/

/-- Attempt `m` is the first to succeed: `upsertDocument` makes `m` database calls. -/
theorem upsertDocument_dbCalls_first_ok (numRetries : Int) (config : Config) (env : Env)
    (UpdateOne : Int → Except Err UpdateResult) (m : Int) (r : UpdateResult)
    (h1 : 1 ≤ m) (h2 : m ≤ numRetries)
    (hfail : ∀ j : Int, 1 ≤ j → j < m → ∃ e, UpdateOne j = .error e)
    (hok : UpdateOne m = .ok r) :
    (dbCalls (upsertDocument numRetries config env UpdateOne).trace : Int) = m := by
  have hm : (1 : Int) + ((m - 1).toNat : Int) = m := by omega
  obtain ⟨_, _, h3, _⟩ :=
    retryLoop_success numRetries UpdateOne
      (fun ok => Effect.UpdateOne (upsertCtx config env) (upsertDoc env).Key (upsertDoc env)
        true ok)
      "upsert" "upsert error: %+v, attempt %v" (updateOne_entry _ _ _ _) r (m - 1).toNat 1
      { err := none, res := none, trace := [] } (by omega)
      (fun j a b => hfail j a (by omega)) (by rw [hm]; exact hok)
  rw [(upsertDocument_counts numRetries config env UpdateOne).1]
  unfold upsertLoop
  rw [h3]
  simp only [dbCalls, List.countP_nil]
  omega

/-- No attempt succeeds: `upsertDocument` makes `numRetries` database calls. -/
theorem upsertDocument_dbCalls_all_fail (numRetries : Int) (config : Config) (env : Env)
    (UpdateOne : Int → Except Err UpdateResult) (hn : 1 ≤ numRetries)
    (hfail : ∀ j : Int, 1 ≤ j → j ≤ numRetries → ∃ e, UpdateOne j = .error e) :
    (dbCalls (upsertDocument numRetries config env UpdateOne).trace : Int) = numRetries := by
  obtain ⟨_, _, h3, _⟩ :=
    retryLoop_exhausted numRetries UpdateOne
      (fun ok => Effect.UpdateOne (upsertCtx config env) (upsertDoc env).Key (upsertDoc env)
        true ok)
      "upsert" "upsert error: %+v, attempt %v" (updateOne_entry _ _ _ _)
      (numRetries - 1).toNat 1 { err := none, res := none, trace := [] } (by omega) hfail
  rw [(upsertDocument_counts numRetries config env UpdateOne).1]
  unfold upsertLoop
  rw [h3]
  simp only [dbCalls, List.countP_nil]
  omega

/-- Attempt `m` is the first to succeed: `findDocuments` makes `m` database calls. -/
theorem findDocuments_dbCalls_first_ok {D : Type} (numRetries : Int) (config : Config)
    (env : Env) (Find : Int → Except Err (Cursor D)) (m : Int) (cursor : Cursor D)
    (h1 : 1 ≤ m) (h2 : m ≤ numRetries)
    (hfail : ∀ j : Int, 1 ≤ j → j < m → ∃ e, Find j = .error e)
    (hok : Find m = .ok cursor) :
    (dbCalls (findDocuments numRetries config env Find).trace : Int) = m := by
  have hm : (1 : Int) + ((m - 1).toNat : Int) = m := by omega
  obtain ⟨_, _, h3, _⟩ :=
    retryLoop_success numRetries Find
      (fun ok => Effect.Find (findCtx config env) (env.Intn 0 500000 + 1) 5 ok)
      "find" "find error: %+v, attempt %v" (find_entry _ _ _) cursor (m - 1).toNat 1
      { err := none, res := none, trace := [] } (by omega)
      (fun j a b => hfail j a (by omega)) (by rw [hm]; exact hok)
  rw [(findDocuments_counts numRetries config env Find).1]
  unfold findLoop
  rw [h3]
  simp only [dbCalls, List.countP_nil]
  omega

/-- No attempt succeeds: `findDocuments` makes `numRetries` database calls. -/
theorem findDocuments_dbCalls_all_fail {D : Type} (numRetries : Int) (config : Config)
    (env : Env) (Find : Int → Except Err (Cursor D)) (hn : 1 ≤ numRetries)
    (hfail : ∀ j : Int, 1 ≤ j → j ≤ numRetries → ∃ e, Find j = .error e) :
    (dbCalls (findDocuments numRetries config env Find).trace : Int) = numRetries := by
  obtain ⟨_, _, h3, _⟩ :=
    retryLoop_exhausted numRetries Find
      (fun ok => Effect.Find (findCtx config env) (env.Intn 0 500000 + 1) 5 ok)
      "find" "find error: %+v, attempt %v" (find_entry _ _ _)
      (numRetries - 1).toNat 1 { err := none, res := none, trace := [] } (by omega) hfail
  rw [(findDocuments_counts numRetries config env Find).1]
  unfold findLoop
  rw [h3]
  simp only [dbCalls, List.countP_nil]
  omega

/-- Every database call of `upsertDocument` carries the context of line 32. -/
theorem upsertDocument_ctx (numRetries : Int) (config : Config) (env : Env)
    (UpdateOne : Int → Except Err UpdateResult) :
    ∀ e ∈ (upsertDocument numRetries config env UpdateOne).trace,
      ∀ c, e.ctx? = some c → c = upsertCtx config env := by
  intro e he c hc
  rw [upsertDocument_trace, List.mem_append] at he
  rcases he with he | he
  · exact retryLoop_ctx numRetries UpdateOne
      (fun ok => Effect.UpdateOne (upsertCtx config env) (upsertDoc env).Key (upsertDoc env)
        true ok)
      "upsert" "upsert error: %+v, attempt %v" (upsertCtx config env) (fun _ => rfl)
      1 { err := none, res := none, trace := [] } (fun e he => by simp at he) e he c hc
  · simp only [List.mem_singleton] at he
    subst he
    simp [Effect.ctx?] at hc

/-- Every database call of `findDocuments` carries the context of line 60. -/
theorem findDocuments_ctx {D : Type} (numRetries : Int) (config : Config) (env : Env)
    (Find : Int → Except Err (Cursor D)) :
    ∀ e ∈ (findDocuments numRetries config env Find).trace,
      ∀ c, e.ctx? = some c → c = findCtx config env := by
  intro e he c hc
  have hloop := retryLoop_ctx numRetries Find
    (fun ok => Effect.Find (findCtx config env) (env.Intn 0 500000 + 1) 5 ok)
    "find" "find error: %+v, attempt %v" (findCtx config env) (fun _ => rfl)
    1 { err := none, res := none, trace := [] } (fun e he => by simp at he)
  have hmem : e ∈ (findLoop numRetries config env Find).trace ∨ e.ctx? = none := by
    simp only [findDocuments] at he
    split at he
    · rw [List.mem_append] at he
      rcases he with he | he
      · exact Or.inl he
      · simp only [List.mem_singleton] at he
        subst he
        exact Or.inr rfl
    · split at he
      · rw [List.mem_append] at he
        rcases he with he | he
        · exact Or.inl he
        · simp only [List.mem_singleton] at he
          subst he
          exact Or.inr rfl
      · rw [List.mem_append] at he
        rcases he with he | he
        · exact Or.inl he
        · simp only [List.mem_cons, List.mem_singleton, List.not_mem_nil, or_false] at he
          rcases he with he | he
          · subst he
            exact Or.inr rfl
          · subst he
            exact Or.inr rfl
  rcases hmem with hmem | hmem
  · exact hloop e hmem c hc
  · rw [hmem] at hc
    cases hc

/-! ## Claims -/

/-- C1: in the retry loops of `upsertDocument` and `findDocuments`, for every
`k` with `0 ≤ k < numRetries`, if the first `k` database calls fail and call
`k+1` succeeds, then exactly `k+1` database calls are made, `trackMongoDBErrors`
is called exactly `k` times, `incrementEventCount` is called exactly once (with
`"upsert"`, resp. `"find"`), the loop ends with `err == nil`, and the handler
answers on its success path (201 with the created key, resp. 200 with the count
taken from the cursor the successful call returned). -/
theorem first_success_after_k_failures (numRetries : Int) (config : Config) (env : Env)
    (k : Nat) (hk : (k : Int) < numRetries) :
    (∀ (UpdateOne : Int → Except Err UpdateResult) (r : UpdateResult),
      (∀ j : Int, 1 ≤ j → j ≤ k → ∃ e, UpdateOne j = .error e) →
      UpdateOne ((k : Int) + 1) = .ok r →
      dbCalls (upsertDocument numRetries config env UpdateOne).trace = k + 1 ∧
      trackCalls (upsertDocument numRetries config env UpdateOne).trace = k ∧
      eventCalls (upsertDocument numRetries config env UpdateOne).trace = 1 ∧
      eventCallsOf "upsert" (upsertDocument numRetries config env UpdateOne).trace = 1 ∧
      (upsertLoop numRetries config env UpdateOne).err = none ∧
      (upsertDocument numRetries config env UpdateOne).w =
        { header := [], status := some 201,
          body := "Created _id: " ++ (upsertDoc env).Key ++ "\n", headerWrites := 1 }) ∧
    (∀ (D : Type) (Find : Int → Except Err (Cursor D)) (cursor : Cursor D),
      (∀ j : Int, 1 ≤ j → j ≤ k → ∃ e, Find j = .error e) →
      Find ((k : Int) + 1) = .ok cursor →
      dbCalls (findDocuments numRetries config env Find).trace = k + 1 ∧
      trackCalls (findDocuments numRetries config env Find).trace = k ∧
      eventCalls (findDocuments numRetries config env Find).trace = 1 ∧
      eventCallsOf "find" (findDocuments numRetries config env Find).trace = 1 ∧
      (findLoop numRetries config env Find).err = none ∧
      (findLoop numRetries config env Find).res = some cursor ∧
      (findDocuments numRetries config env Find).panicked = false ∧
      (findDocuments numRetries config env Find).w =
        { header := [], status := some 200,
          body := "Number of documents found: " ++ toString (countLoop cursor.docs 0) ++ "\n",
          headerWrites := 1 }) := by
  constructor
  · intro UpdateOne r hfail hok
    have hok2 : UpdateOne (1 + (k : Int)) = .ok r := by rw [add_comm]; exact hok
    obtain ⟨h1, _, h3, _, h5, h6, h7⟩ :=
      retryLoop_success numRetries UpdateOne
        (fun ok => Effect.UpdateOne (upsertCtx config env) (upsertDoc env).Key (upsertDoc env)
          true ok)
        "upsert" "upsert error: %+v, attempt %v" (updateOne_entry _ _ _ _) r k 1
        { err := none, res := none, trace := [] } (by omega)
        (fun j a b => hfail j a (by omega)) hok2
    obtain ⟨c1, _, c3, c4, c5⟩ := upsertDocument_counts numRetries config env UpdateOne
    refine ⟨?_, ?_, ?_, ?_, h1, upsertDocument_w_ok numRetries config env UpdateOne h1⟩
    · rw [c1]; unfold upsertLoop; rw [h3]; simp [dbCalls]
    · rw [c3]; unfold upsertLoop; rw [h5]; simp [trackCalls]
    · rw [c4]; unfold upsertLoop; rw [h6]; simp [eventCalls]
    · rw [c5]; unfold upsertLoop; rw [h7]; simp [eventCallsOf]
  · intro D Find cursor hfail hok
    have hok2 : Find (1 + (k : Int)) = .ok cursor := by rw [add_comm]; exact hok
    obtain ⟨h1, h2, h3, _, h5, h6, h7⟩ :=
      retryLoop_success numRetries Find
        (fun ok => Effect.Find (findCtx config env) (env.Intn 0 500000 + 1) 5 ok)
        "find" "find error: %+v, attempt %v" (find_entry _ _ _) cursor k 1
        { err := none, res := none, trace := [] } (by omega)
        (fun j a b => hfail j a (by omega)) hok2
    obtain ⟨c1, _, c3, c4, c5⟩ := findDocuments_counts numRetries config env Find
    obtain ⟨w1, w2, _⟩ := findDocuments_w_ok numRetries config env Find cursor h1 h2
    refine ⟨?_, ?_, ?_, ?_, h1, h2, w2, w1⟩
    · rw [c1]; unfold findLoop; rw [h3]; simp [dbCalls]
    · rw [c3]; unfold findLoop; rw [h5]; simp [trackCalls]
    · rw [c4]; unfold findLoop; rw [h6]; simp [eventCalls]
    · rw [c5]; unfold findLoop; rw [h7]; simp [eventCallsOf]

/-- Witness of C1: ceiling 3, two failures then a success, in both handlers. -/
theorem first_success_after_k_failures_witness :
    (dbCalls (upsertDocument 3 sampleConfig sampleEnv failTwiceThenOk).trace = 3 ∧
      trackCalls (upsertDocument 3 sampleConfig sampleEnv failTwiceThenOk).trace = 2 ∧
      eventCallsOf "upsert" (upsertDocument 3 sampleConfig sampleEnv failTwiceThenOk).trace = 1 ∧
      (upsertDocument 3 sampleConfig sampleEnv failTwiceThenOk).w.status = some 201) ∧
    (dbCalls (findDocuments 3 sampleConfig sampleEnv findFailTwiceThenOk).trace = 3 ∧
      trackCalls (findDocuments 3 sampleConfig sampleEnv findFailTwiceThenOk).trace = 2 ∧
      eventCallsOf "find" (findDocuments 3 sampleConfig sampleEnv findFailTwiceThenOk).trace = 1 ∧
      (findDocuments 3 sampleConfig sampleEnv findFailTwiceThenOk).w.status = some 200) := by
  have h := first_success_after_k_failures 3 sampleConfig sampleEnv 2 (by norm_num)
  have hu := h.1 failTwiceThenOk ⟨0, 0, 1⟩
    (fun j h1 h2 => by
      have hj : j = 1 ∨ j = 2 := by
        have : j ≤ 2 := by exact_mod_cast h2
        omega
      rcases hj with rfl | rfl
      · exact ⟨_, rfl⟩
      · exact ⟨_, rfl⟩)
    rfl
  have hf := h.2 String findFailTwiceThenOk ⟨["a", "b", "c"], none⟩
    (fun j h1 h2 => by
      have hj : j = 1 ∨ j = 2 := by
        have : j ≤ 2 := by exact_mod_cast h2
        omega
      rcases hj with rfl | rfl
      · exact ⟨_, rfl⟩
      · exact ⟨_, rfl⟩)
    rfl
  refine ⟨⟨hu.1, hu.2.1, hu.2.2.2.1, ?_⟩, ⟨hf.1, hf.2.1, hf.2.2.2.1, ?_⟩⟩
  · rw [hu.2.2.2.2.2]
  · rw [hf.2.2.2.2.2.2.2]

/-- C2: in the retry loops of `upsertDocument` and `findDocuments` with
`numRetries ≥ 1`, if every database call fails, then exactly `numRetries` calls
are made, `trackMongoDBErrors` is called exactly `numRetries` times,
`incrementEventCount` is never called, and the error handed to `http.Error`
(status 500) is the error of attempt `numRetries`, the last one. -/
theorem all_attempts_fail (numRetries : Int) (config : Config) (env : Env)
    (hn : 1 ≤ numRetries) :
    (∀ (UpdateOne : Int → Except Err UpdateResult),
      (∀ j : Int, 1 ≤ j → j ≤ numRetries → ∃ e, UpdateOne j = .error e) →
      (dbCalls (upsertDocument numRetries config env UpdateOne).trace : Int) = numRetries ∧
      (trackCalls (upsertDocument numRetries config env UpdateOne).trace : Int) = numRetries ∧
      eventCalls (upsertDocument numRetries config env UpdateOne).trace = 0 ∧
      ∀ e, UpdateOne numRetries = .error e →
        (upsertLoop numRetries config env UpdateOne).err = some e ∧
        (upsertDocument numRetries config env UpdateOne).w.status = some 500 ∧
        (upsertDocument numRetries config env UpdateOne).w.body = e.Error ++ "\n") ∧
    (∀ (D : Type) (Find : Int → Except Err (Cursor D)),
      (∀ j : Int, 1 ≤ j → j ≤ numRetries → ∃ e, Find j = .error e) →
      (dbCalls (findDocuments numRetries config env Find).trace : Int) = numRetries ∧
      (trackCalls (findDocuments numRetries config env Find).trace : Int) = numRetries ∧
      eventCalls (findDocuments numRetries config env Find).trace = 0 ∧
      ∀ e, Find numRetries = .error e →
        (findLoop numRetries config env Find).err = some e ∧
        (findDocuments numRetries config env Find).w.status = some 500 ∧
        (findDocuments numRetries config env Find).w.body = e.Error ++ "\n") := by
  have hk : (1 : Int) + ((numRetries - 1).toNat : Int) = numRetries := by omega
  constructor
  · intro UpdateOne hfail
    obtain ⟨h1, _, h3, _, h5, h6⟩ :=
      retryLoop_exhausted numRetries UpdateOne
        (fun ok => Effect.UpdateOne (upsertCtx config env) (upsertDoc env).Key (upsertDoc env)
          true ok)
        "upsert" "upsert error: %+v, attempt %v" (updateOne_entry _ _ _ _)
        (numRetries - 1).toNat 1 { err := none, res := none, trace := [] } hk hfail
    obtain ⟨c1, _, c3, c4, _⟩ := upsertDocument_counts numRetries config env UpdateOne
    refine ⟨?_, ?_, ?_, ?_⟩
    · rw [c1]; unfold upsertLoop; rw [h3]; simp only [dbCalls, List.countP_nil]; omega
    · rw [c3]; unfold upsertLoop; rw [h5]; simp only [trackCalls, List.countP_nil]; omega
    · rw [c4]; unfold upsertLoop; rw [h6]; rfl
    · intro e he
      have herr : (upsertLoop numRetries config env UpdateOne).err = some e := h1 e he
      rw [upsertDocument_w_err numRetries config env UpdateOne e herr]
      exact ⟨herr, rfl, rfl⟩
  · intro D Find hfail
    obtain ⟨h1, _, h3, _, h5, h6⟩ :=
      retryLoop_exhausted numRetries Find
        (fun ok => Effect.Find (findCtx config env) (env.Intn 0 500000 + 1) 5 ok)
        "find" "find error: %+v, attempt %v" (find_entry _ _ _)
        (numRetries - 1).toNat 1 { err := none, res := none, trace := [] } hk hfail
    obtain ⟨c1, _, c3, c4, _⟩ := findDocuments_counts numRetries config env Find
    refine ⟨?_, ?_, ?_, ?_⟩
    · rw [c1]; unfold findLoop; rw [h3]; simp only [dbCalls, List.countP_nil]; omega
    · rw [c3]; unfold findLoop; rw [h5]; simp only [trackCalls, List.countP_nil]; omega
    · rw [c4]; unfold findLoop; rw [h6]; rfl
    · intro e he
      have herr : (findLoop numRetries config env Find).err = some e := h1 e he
      rw [(findDocuments_w_err numRetries config env Find e herr).1]
      exact ⟨herr, rfl, rfl⟩

/-- Witness of C2: ceiling 3 and three failures with three different errors;
the response carries the third. -/
theorem all_attempts_fail_witness :
    (dbCalls (upsertDocument 3 sampleConfig sampleEnv distinctFailures).trace = 3 ∧
      trackCalls (upsertDocument 3 sampleConfig sampleEnv distinctFailures).trace = 3 ∧
      eventCalls (upsertDocument 3 sampleConfig sampleEnv distinctFailures).trace = 0 ∧
      (upsertDocument 3 sampleConfig sampleEnv distinctFailures).w.body = "third\n") ∧
    (dbCalls (findDocuments 3 sampleConfig sampleEnv findDistinctFailures).trace = 3 ∧
      trackCalls (findDocuments 3 sampleConfig sampleEnv findDistinctFailures).trace = 3 ∧
      eventCalls (findDocuments 3 sampleConfig sampleEnv findDistinctFailures).trace = 0 ∧
      (findDocuments 3 sampleConfig sampleEnv findDistinctFailures).w.body = "third\n") := by
  have h := all_attempts_fail 3 sampleConfig sampleEnv (by decide)
  have hu := h.1 distinctFailures (fun j h1 h2 => by
    have hj : j = 1 ∨ j = 2 ∨ j = 3 := by omega
    rcases hj with rfl | rfl | rfl
    · exact ⟨_, rfl⟩
    · exact ⟨_, rfl⟩
    · exact ⟨_, rfl⟩)
  have hf := h.2 String findDistinctFailures (fun j h1 h2 => by
    have hj : j = 1 ∨ j = 2 ∨ j = 3 := by omega
    rcases hj with rfl | rfl | rfl
    · exact ⟨_, rfl⟩
    · exact ⟨_, rfl⟩
    · exact ⟨_, rfl⟩)
  refine ⟨⟨by exact_mod_cast hu.1, by exact_mod_cast hu.2.1, hu.2.2.1, ?_⟩,
    ⟨by exact_mod_cast hf.1, by exact_mod_cast hf.2.1, hf.2.2.1, ?_⟩⟩
  · exact (hu.2.2.2 (.other "third") rfl).2.2
  · exact (hf.2.2.2 (.other "third") rfl).2.2

/-- Counterexample to C3: with ceiling 3 and a deadline that has elapsed
before the first attempt, attempt 1 fails with deadline-exceeded and both
loops still issue three database calls. -/
theorem deadline_exceeded_loop_goes_on :
    deadlineElapsed 1 = .error .DeadlineExceeded ∧
    dbCalls (upsertDocument 3 sampleConfig sampleEnv deadlineElapsed).trace = 3 ∧
    findDeadlineElapsed 1 = .error .DeadlineExceeded ∧
    dbCalls (findDocuments 3 sampleConfig sampleEnv findDeadlineElapsed).trace = 3 := by
  refine ⟨rfl, ?_, rfl, ?_⟩
  · simp [upsertDocument, upsertLoop, retryLoop, deadlineElapsed, dbCalls, Effect.isDbCall]
  · simp [findDocuments, findLoop, retryLoop, findDeadlineElapsed, dbCalls, Effect.isDbCall]

/-- C3, amended: a deadline-exceeded failure is handled like any other failure
by the retry loops of `upsertDocument` and `findDocuments`. When attempt `k`
fails with deadline-exceeded (the earlier ones having failed) and
`k < numRetries`, the next database call is issued all the same (at least
`k+1` calls are made), every call carries the one context of the request, and
the loop ends only at the first success or at the ceiling: the number of calls
is the index of the first later attempt that succeeds, and `numRetries` when
none does. -/
theorem deadline_exceeded_is_retried (numRetries : Int) (config : Config) (env : Env)
    (k : Nat) (hk1 : 1 ≤ k) (hk : (k : Int) < numRetries) :
    (∀ (UpdateOne : Int → Except Err UpdateResult),
      (∀ j : Int, 1 ≤ j → j < k → ∃ e, UpdateOne j = .error e) →
      UpdateOne k = .error .DeadlineExceeded →
      k + 1 ≤ dbCalls (upsertDocument numRetries config env UpdateOne).trace ∧
      (∀ e ∈ (upsertDocument numRetries config env UpdateOne).trace,
        ∀ c, e.ctx? = some c → c = upsertCtx config env) ∧
      (∀ (m : Int) (r : UpdateResult), (k : Int) < m → m ≤ numRetries →
        (∀ j : Int, (k : Int) < j → j < m → ∃ e, UpdateOne j = .error e) →
        UpdateOne m = .ok r →
        (dbCalls (upsertDocument numRetries config env UpdateOne).trace : Int) = m) ∧
      ((∀ j : Int, (k : Int) < j → j ≤ numRetries → ∃ e, UpdateOne j = .error e) →
        (dbCalls (upsertDocument numRetries config env UpdateOne).trace : Int)
          = numRetries)) ∧
    (∀ (D : Type) (Find : Int → Except Err (Cursor D)),
      (∀ j : Int, 1 ≤ j → j < k → ∃ e, Find j = .error e) →
      Find k = .error .DeadlineExceeded →
      k + 1 ≤ dbCalls (findDocuments numRetries config env Find).trace ∧
      (∀ e ∈ (findDocuments numRetries config env Find).trace,
        ∀ c, e.ctx? = some c → c = findCtx config env) ∧
      (∀ (m : Int) (cursor : Cursor D), (k : Int) < m → m ≤ numRetries →
        (∀ j : Int, (k : Int) < j → j < m → ∃ e, Find j = .error e) →
        Find m = .ok cursor →
        (dbCalls (findDocuments numRetries config env Find).trace : Int) = m) ∧
      ((∀ j : Int, (k : Int) < j → j ≤ numRetries → ∃ e, Find j = .error e) →
        (dbCalls (findDocuments numRetries config env Find).trace : Int) = numRetries)) := by
  have hk1' : (1 : Int) ≤ k := by exact_mod_cast hk1
  constructor
  · intro UpdateOne hfail hdl
    have hupto : ∀ j : Int, 1 ≤ j → j ≤ k → ∃ e, UpdateOne j = .error e := by
      intro j a b
      by_cases hj : j = k
      · exact ⟨_, hj ▸ hdl⟩
      · exact hfail j a (by omega)
    refine ⟨?_, upsertDocument_ctx numRetries config env UpdateOne, ?_, ?_⟩
    · have h := retryLoop_continues numRetries UpdateOne
        (fun ok => Effect.UpdateOne (upsertCtx config env) (upsertDoc env).Key (upsertDoc env)
          true ok)
        "upsert" "upsert error: %+v, attempt %v" (updateOne_entry _ _ _ _) k 1
        { err := none, res := none, trace := [] } (by omega)
        (fun j a b => hupto j a (by omega))
      rw [(upsertDocument_counts numRetries config env UpdateOne).1]
      unfold upsertLoop
      simp only [dbCalls, List.countP_nil] at h ⊢
      omega
    · intro m r hm1 hm2 hlater hok
      refine upsertDocument_dbCalls_first_ok numRetries config env UpdateOne m r (by omega)
        hm2 (fun j a b => ?_) hok
      by_cases hj : j ≤ k
      · exact hupto j a hj
      · exact hlater j (by omega) b
    · intro hlater
      refine upsertDocument_dbCalls_all_fail numRetries config env UpdateOne (by omega)
        (fun j a b => ?_)
      by_cases hj : j ≤ k
      · exact hupto j a hj
      · exact hlater j (by omega) b
  · intro D Find hfail hdl
    have hupto : ∀ j : Int, 1 ≤ j → j ≤ k → ∃ e, Find j = .error e := by
      intro j a b
      by_cases hj : j = k
      · exact ⟨_, hj ▸ hdl⟩
      · exact hfail j a (by omega)
    refine ⟨?_, findDocuments_ctx numRetries config env Find, ?_, ?_⟩
    · have h := retryLoop_continues numRetries Find
        (fun ok => Effect.Find (findCtx config env) (env.Intn 0 500000 + 1) 5 ok)
        "find" "find error: %+v, attempt %v" (find_entry _ _ _) k 1
        { err := none, res := none, trace := [] } (by omega)
        (fun j a b => hupto j a (by omega))
      rw [(findDocuments_counts numRetries config env Find).1]
      unfold findLoop
      simp only [dbCalls, List.countP_nil] at h ⊢
      omega
    · intro m cursor hm1 hm2 hlater hok
      refine findDocuments_dbCalls_first_ok numRetries config env Find m cursor (by omega)
        hm2 (fun j a b => ?_) hok
      by_cases hj : j ≤ k
      · exact hupto j a hj
      · exact hlater j (by omega) b
    · intro hlater
      refine findDocuments_dbCalls_all_fail numRetries config env Find (by omega)
        (fun j a b => ?_)
      by_cases hj : j ≤ k
      · exact hupto j a hj
      · exact hlater j (by omega) b

/-- Witness of C3 as amended, ceiling 3. Attempt 2 fails with deadline-exceeded
and attempt 3 succeeds: three calls. Attempt 1 fails with deadline-exceeded and
so do the others: three calls again. -/
theorem deadline_exceeded_is_retried_witness :
    (3 ≤ dbCalls (upsertDocument 3 sampleConfig sampleEnv failTwiceThenOk).trace ∧
      (dbCalls (upsertDocument 3 sampleConfig sampleEnv failTwiceThenOk).trace : Int) = 3 ∧
      (dbCalls (upsertDocument 3 sampleConfig sampleEnv deadlineElapsed).trace : Int) = 3) ∧
    (3 ≤ dbCalls (findDocuments 3 sampleConfig sampleEnv findFailTwiceThenOk).trace ∧
      (dbCalls (findDocuments 3 sampleConfig sampleEnv findFailTwiceThenOk).trace : Int) = 3 ∧
      (dbCalls (findDocuments 3 sampleConfig sampleEnv findDeadlineElapsed).trace : Int)
        = 3) := by
  have h2 := deadline_exceeded_is_retried 3 sampleConfig sampleEnv 2 (by decide) (by norm_num)
  have h1 := deadline_exceeded_is_retried 3 sampleConfig sampleEnv 1 (by decide) (by norm_num)
  have first : ∀ j : Int, 1 ≤ j → j < ((2 : Nat) : Int) → j = 1 := by
    intro j a b
    have : j < 2 := by exact_mod_cast b
    omega
  have none1 : ∀ j : Int, 1 ≤ j → j < ((1 : Nat) : Int) → False := by
    intro j a b
    have : j < 1 := by exact_mod_cast b
    omega
  have between : ∀ j : Int, ((2 : Nat) : Int) < j → j < 3 → False := by
    intro j a b
    have : (2 : Int) < j := by exact_mod_cast a
    omega
  have hu := h2.1 failTwiceThenOk
    (fun j a b => by rw [first j a b]; exact ⟨_, rfl⟩) rfl
  have hf := h2.2 String findFailTwiceThenOk
    (fun j a b => by rw [first j a b]; exact ⟨_, rfl⟩) rfl
  have hu1 := h1.1 deadlineElapsed (fun j a b => (none1 j a b).elim) rfl
  have hf1 := h1.2 String findDeadlineElapsed (fun j a b => (none1 j a b).elim) rfl
  refine ⟨⟨hu.1, ?_, ?_⟩, ⟨hf.1, ?_, ?_⟩⟩
  · exact hu.2.2.1 3 ⟨0, 0, 1⟩ (by norm_num) (by decide)
      (fun j a b => (between j a b).elim) rfl
  · exact hu1.2.2.2 (fun j _ _ => ⟨_, rfl⟩)
  · exact hf.2.2.1 3 ⟨["a", "b", "c"], none⟩ (by norm_num) (by decide)
      (fun j a b => (between j a b).elim) rfl
  · exact hf1.2.2.2 (fun j _ _ => ⟨_, rfl⟩)

/-- C4: for every successful `findDocuments` run whose cursor yields `n`
documents before `Next` returns false, the count written in the response
satisfies `count ≤ min 1000 n`, and `count ≤ 5` whenever `n ≤ 5`; the counting
loop stops as soon as the count reaches 1000, so the count is `min 1000 n`. -/
theorem find_count_bounded {D : Type} (numRetries : Int) (config : Config) (env : Env)
    (Find : Int → Except Err (Cursor D)) (cursor : Cursor D) (k : Nat)
    (hk : (k : Int) < numRetries)
    (hfail : ∀ j : Int, 1 ≤ j → j ≤ k → ∃ e, Find j = .error e)
    (hok : Find ((k : Int) + 1) = .ok cursor) :
    ∃ count : Int,
      (findDocuments numRetries config env Find).w.status = some 200 ∧
      (findDocuments numRetries config env Find).w.body
        = "Number of documents found: " ++ toString count ++ "\n" ∧
      count ≤ min 1000 (cursor.docs.length : Int) ∧
      (cursor.docs.length ≤ 5 → count ≤ 5) ∧
      count = min 1000 (cursor.docs.length : Int) := by
  have hok2 : Find (1 + (k : Int)) = .ok cursor := by rw [add_comm]; exact hok
  obtain ⟨h1, h2, _⟩ :=
    retryLoop_success numRetries Find
      (fun ok => Effect.Find (findCtx config env) (env.Intn 0 500000 + 1) 5 ok)
      "find" "find error: %+v, attempt %v" (find_entry _ _ _) cursor k 1
      { err := none, res := none, trace := [] } (by omega)
      (fun j a b => hfail j a (by omega)) hok2
  obtain ⟨w1, _, _⟩ := findDocuments_w_ok numRetries config env Find cursor h1 h2
  have hc := countLoop_eq cursor.docs 0 (le_refl 0) (by decide)
  rw [zero_add] at hc
  refine ⟨countLoop cursor.docs 0, ?_, ?_, ?_, ?_, hc⟩
  · rw [w1]
  · rw [w1]
  · rw [hc]
  · intro h5
    rw [hc]
    have : (cursor.docs.length : Int) ≤ 5 := by exact_mod_cast h5
    omega

/-- Witness of C4: the third `Find` succeeds with a cursor over three documents. -/
theorem find_count_bounded_witness :
    ∃ count : Int,
      (findDocuments 3 sampleConfig sampleEnv findFailTwiceThenOk).w.body
        = "Number of documents found: " ++ toString count ++ "\n" ∧
      count ≤ 5 ∧ count = 3 := by
  obtain ⟨count, _, h2, _, h4, h5⟩ :=
    find_count_bounded 3 sampleConfig sampleEnv findFailTwiceThenOk ⟨["a", "b", "c"], none⟩ 2
      (by norm_num)
      (fun j h1 h2 => by
        have hj : j = 1 ∨ j = 2 := by
          have : j ≤ 2 := by exact_mod_cast h2
          omega
        rcases hj with rfl | rfl
        · exact ⟨_, rfl⟩
        · exact ⟨_, rfl⟩)
      rfl
  exact ⟨count, h2, h4 (by decide), by rw [h5]; decide⟩

/-- C5: in `aggSampleGroup`, if the `Aggregate` call is reached (the sample
size is not negative) and succeeds, and the cursor yields zero rows because no
document matched, the handler answers with status 200 and the JSON encoding of
the zero-value `AggregationResult` (four empty strings and `xavg = 0`), not
with an error response. -/
theorem agg_no_match_answers_zero_value (config : Config) (env : Env)
    (cursor : Cursor (Except Err AggregationResult)) (responseJSON : String)
    (hsize : 0 ≤ config.AggInQuerySize)
    (hrows : cursor.docs = []) (_herr : cursor.err = none)
    (hjson : env.Marshal AggregationResult.zero = .ok responseJSON) :
    (aggSampleGroup config env (.ok cursor)).w =
      { header := [("Content-Type", "application/json")], status := some 200,
        body := responseJSON, headerWrites := 1 } ∧
    (aggSampleGroup config env (.ok cursor)).panicked = false ∧
    AggregationResult.zero = ⟨"", "", "", "", ⟨0⟩⟩ := by
  have hn : ¬ config.AggInQuerySize < 0 := by omega
  refine ⟨?_, ?_, rfl⟩
  · simp [aggSampleGroup, hn, Cursor.Next, hrows, hjson, ResponseWriter.new,
      ResponseWriter.SetHeader, ResponseWriter.WriteHeader, ResponseWriter.Write, StatusOK]
  · simp [aggSampleGroup, hn, Cursor.Next, hrows, hjson]

/-- Witness of C5: an empty cursor and a `json.Marshal` that renders the zero value. -/
theorem agg_no_match_answers_zero_value_witness :
    (aggSampleGroup sampleConfig sampleEnv (.ok emptyCursor)).w.status = some 200 ∧
    (aggSampleGroup sampleConfig sampleEnv (.ok emptyCursor)).w.body = zeroJSON := by
  have h := (agg_no_match_answers_zero_value sampleConfig sampleEnv emptyCursor zeroJSON
    (by decide) rfl rfl rfl).1
  rw [h]
  exact ⟨rfl, rfl⟩

/-- C6, at the failing input: the `Aggregate` call succeeds, the iteration of
its cursor fails (`cursor.Next` returns false, `cursor.Err()` is set), and the
handler answers 200 with the zero-value row, not 500. -/
theorem agg_cursor_failure_answers_200 :
    brokenCursor.err = some (.other "connection reset by peer") ∧
    (aggSampleGroup sampleConfig sampleEnv (.ok brokenCursor)).w.status = some 200 ∧
    (aggSampleGroup sampleConfig sampleEnv (.ok brokenCursor)).w.body = zeroJSON := by
  simp [aggSampleGroup, sampleConfig, Cursor.Next, brokenCursor, sampleEnv,
    ResponseWriter.new, ResponseWriter.SetHeader, ResponseWriter.WriteHeader,
    ResponseWriter.Write, StatusOK]

/-- The three failures `aggSampleGroup` does check (the `Aggregate` call, the
decoding of the row, the JSON serialization) are answered with status 500 and
the error text. -/
theorem agg_checked_failures_answer_500 (config : Config) (env : Env) (e : Err)
    (hsize : 0 ≤ config.AggInQuerySize) :
    (aggSampleGroup config env (.error e)).w.status = some 500 ∧
    (aggSampleGroup config env (.error e)).w.body = e.Error ++ "\n" ∧
    (∀ rest err, (aggSampleGroup config env (.ok ⟨.error e :: rest, err⟩)).w.status
      = some 500) ∧
    (∀ row rest err, env.Marshal row = .error e →
      (aggSampleGroup config env (.ok ⟨.ok row :: rest, err⟩)).w.status = some 500) ∧
    (∀ err, env.Marshal AggregationResult.zero = .error e →
      (aggSampleGroup config env (.ok ⟨[], err⟩)).w.status = some 500) := by
  have hn : ¬ config.AggInQuerySize < 0 := by omega
  refine ⟨?_, ?_, ?_, ?_, ?_⟩
  · simp [aggSampleGroup, hn, httpError_new, StatusInternalServerError]
  · simp [aggSampleGroup, hn, httpError_new]
  · intro rest err
    simp [aggSampleGroup, hn, Cursor.Next, httpError_new, StatusInternalServerError]
  · intro row rest err hm
    simp [aggSampleGroup, hn, Cursor.Next, hm, httpError_new, StatusInternalServerError]
  · intro err hm
    simp [aggSampleGroup, hn, Cursor.Next, hm, httpError_new, StatusInternalServerError]

/-- Counterexample to C7: in `aggSampleGroup` a failed `Aggregate` call is one
failed database call and no `trackMongoDBErrors` call. -/
theorem agg_failure_is_not_tracked :
    failedDbCalls (aggSampleGroup sampleConfig sampleEnv (.error (.other "boom"))).trace = 1 ∧
    trackCalls (aggSampleGroup sampleConfig sampleEnv (.error (.other "boom"))).trace = 0 := by
  simp [aggSampleGroup, sampleConfig, failedDbCalls, trackCalls, Effect.isFailedDbCall,
    Effect.isTrack]

/-- C7, amended: in `upsertDocument` and `findDocuments` the number of
`trackMongoDBErrors` calls made during a request equals the number of failed
`UpdateOne` (resp. `Find`) calls made during that request, and the
`incrementEventCount` and `trackMongoDBErrors` calls together are as many as
the `UpdateOne` (resp. `Find`) calls, so every attempt of a retry loop is
reflected in the metrics. `aggSampleGroup` makes one `Aggregate` call (none when
a negative sample size makes it panic first) and no `trackMongoDBErrors` or
`incrementEventCount` call, whether the call fails or succeeds. -/
theorem failures_tracked_in_retry_handlers (numRetries : Int) (config : Config) (env : Env)
    (UpdateOne : Int → Except Err UpdateResult) (D : Type) (Find : Int → Except Err (Cursor D))
    (Aggregate : Except Err (Cursor (Except Err AggregationResult))) :
    (trackCalls (upsertDocument numRetries config env UpdateOne).trace
        = failedDbCalls (upsertDocument numRetries config env UpdateOne).trace ∧
      eventCalls (upsertDocument numRetries config env UpdateOne).trace
        + trackCalls (upsertDocument numRetries config env UpdateOne).trace
        = dbCalls (upsertDocument numRetries config env UpdateOne).trace) ∧
    (trackCalls (findDocuments numRetries config env Find).trace
        = failedDbCalls (findDocuments numRetries config env Find).trace ∧
      eventCalls (findDocuments numRetries config env Find).trace
        + trackCalls (findDocuments numRetries config env Find).trace
        = dbCalls (findDocuments numRetries config env Find).trace) ∧
    (dbCalls (aggSampleGroup config env Aggregate).trace
        = (if config.AggInQuerySize < 0 then 0 else 1) ∧
      trackCalls (aggSampleGroup config env Aggregate).trace = 0 ∧
      eventCalls (aggSampleGroup config env Aggregate).trace = 0) := by
  refine ⟨?_, ?_, ?_⟩
  · obtain ⟨c1, c2, c3, c4, _⟩ := upsertDocument_counts numRetries config env UpdateOne
    have h1 := retryLoop_track_eq_failed numRetries UpdateOne
      (fun ok => Effect.UpdateOne (upsertCtx config env) (upsertDoc env).Key (upsertDoc env)
        true ok)
      "upsert" "upsert error: %+v, attempt %v" (updateOne_entry _ _ _ _) 1
      { err := none, res := none, trace := [] } rfl
    have h2 := retryLoop_event_eq_ok numRetries UpdateOne
      (fun ok => Effect.UpdateOne (upsertCtx config env) (upsertDoc env).Key (upsertDoc env)
        true ok)
      "upsert" "upsert error: %+v, attempt %v" (updateOne_entry _ _ _ _) 1
      { err := none, res := none, trace := [] } rfl
    rw [c1, c2, c3, c4]
    unfold upsertLoop
    exact ⟨h1, by rw [h1]; exact h2⟩
  · obtain ⟨c1, c2, c3, c4, _⟩ := findDocuments_counts numRetries config env Find
    have h1 := retryLoop_track_eq_failed numRetries Find
      (fun ok => Effect.Find (findCtx config env) (env.Intn 0 500000 + 1) 5 ok)
      "find" "find error: %+v, attempt %v" (find_entry _ _ _) 1
      { err := none, res := none, trace := [] } rfl
    have h2 := retryLoop_event_eq_ok numRetries Find
      (fun ok => Effect.Find (findCtx config env) (env.Intn 0 500000 + 1) 5 ok)
      "find" "find error: %+v, attempt %v" (find_entry _ _ _) 1
      { err := none, res := none, trace := [] } rfl
    rw [c1, c2, c3, c4]
    unfold findLoop
    exact ⟨h1, by rw [h1]; exact h2⟩
  · simp only [aggSampleGroup]
    by_cases hneg : config.AggInQuerySize < 0
    · simp [hneg, dbCalls, trackCalls, eventCalls, Effect.isDbCall, Effect.isTrack,
        Effect.isEvent]
    · simp only [hneg, if_false]
      split
      · simp [dbCalls, trackCalls, eventCalls, Effect.isDbCall, Effect.isTrack,
          Effect.isEvent]
      · split
        · simp [dbCalls, trackCalls, eventCalls, Effect.isDbCall, Effect.isTrack,
            Effect.isEvent]
        · split <;>
            simp [dbCalls, trackCalls, eventCalls, Effect.isDbCall, Effect.isTrack,
              Effect.isEvent]

/-- A negative sample size: `aggSampleGroup` panics before any database call
and writes no response. -/
theorem agg_negative_size_panics :
    (aggSampleGroup negativeSampleConfig sampleEnv (.ok emptyCursor)).panicked = true ∧
    (aggSampleGroup negativeSampleConfig sampleEnv (.ok emptyCursor)).trace = [Effect.cancel] ∧
    (aggSampleGroup negativeSampleConfig sampleEnv (.ok emptyCursor)).w.status = none := by
  simp [aggSampleGroup, negativeSampleConfig, ResponseWriter.new]

/-- C8: for `upsertDocument` with `numRetries ≥ 1`: if some attempt succeeds,
the response is status 201 with body `Created _id: <key>` and a newline, where
`<key>` is the generated `doc.Key`, the very key of the filter of every
`UpdateOne` call; if all attempts fail, the response is status 500 and carries
the text of the last error (written by `http.Error`, which ends it with a
newline); in both cases the status line is written exactly once. -/
theorem upsert_response (numRetries : Int) (config : Config) (env : Env)
    (UpdateOne : Int → Except Err UpdateResult) (hn : 1 ≤ numRetries) :
    ((∃ m : Int, 1 ≤ m ∧ m ≤ numRetries ∧ ∃ r, UpdateOne m = .ok r) →
      (upsertDocument numRetries config env UpdateOne).w.status = some 201 ∧
      (upsertDocument numRetries config env UpdateOne).w.body
        = "Created _id: " ++ (upsertDoc env).Key ++ "\n" ∧
      (upsertDocument numRetries config env UpdateOne).w.headerWrites = 1 ∧
      (∀ e ∈ (upsertDocument numRetries config env UpdateOne).trace,
        ∀ key, e.filterKey? = some key → key = (upsertDoc env).Key) ∧
      (upsertDoc env).Key = env.uuid 1) ∧
    ((∀ j : Int, 1 ≤ j → j ≤ numRetries → ∃ e, UpdateOne j = .error e) →
      ∀ e, UpdateOne numRetries = .error e →
        (upsertDocument numRetries config env UpdateOne).w.status = some 500 ∧
        (upsertDocument numRetries config env UpdateOne).w.body = e.Error ++ "\n" ∧
        (upsertDocument numRetries config env UpdateOne).w.headerWrites = 1) := by
  constructor
  · intro hex
    obtain ⟨h1, _⟩ := retryLoop_some_ok numRetries UpdateOne
      (fun ok => Effect.UpdateOne (upsertCtx config env) (upsertDoc env).Key (upsertDoc env)
        true ok)
      "upsert" "upsert error: %+v, attempt %v" _ 1
      { err := none, res := none, trace := [] } rfl hex
    have hw := upsertDocument_w_ok numRetries config env UpdateOne h1
    refine ⟨by rw [hw], by rw [hw], by rw [hw], ?_, rfl⟩
    intro e he key hkey
    rw [upsertDocument_trace, List.mem_append] at he
    rcases he with he | he
    · have hall := retryLoop_forall numRetries UpdateOne
        (fun ok => Effect.UpdateOne (upsertCtx config env) (upsertDoc env).Key (upsertDoc env)
          true ok)
        "upsert" "upsert error: %+v, attempt %v"
        (fun e => ∀ key, e.filterKey? = some key → key = (upsertDoc env).Key)
        (fun b key hk => by
          simp only [Effect.filterKey?] at hk
          exact (Option.some.inj hk).symm)
        (fun key hk => by simp [Effect.filterKey?] at hk)
        (fun _ key hk => by simp [Effect.filterKey?] at hk)
        (fun _ _ key hk => by simp [Effect.filterKey?] at hk)
        1 { err := none, res := none, trace := [] }
        (fun e he => by simp at he)
      exact hall e he key hkey
    · simp only [List.mem_singleton] at he
      subst he
      simp [Effect.filterKey?] at hkey
  · intro hfail e he
    obtain ⟨h1, _⟩ :=
      retryLoop_exhausted numRetries UpdateOne
        (fun ok => Effect.UpdateOne (upsertCtx config env) (upsertDoc env).Key (upsertDoc env)
          true ok)
        "upsert" "upsert error: %+v, attempt %v" (updateOne_entry _ _ _ _)
        (numRetries - 1).toNat 1 { err := none, res := none, trace := [] } (by omega) hfail
    have herr : (upsertLoop numRetries config env UpdateOne).err = some e := h1 e he
    rw [upsertDocument_w_err numRetries config env UpdateOne e herr]
    exact ⟨rfl, rfl, rfl⟩

/-- Witness of C8: with ceiling 3, a run that succeeds at the third attempt
and a run that fails three times. -/
theorem upsert_response_witness :
    ((upsertDocument 3 sampleConfig sampleEnv failTwiceThenOk).w.status = some 201 ∧
      (upsertDocument 3 sampleConfig sampleEnv failTwiceThenOk).w.body
        = "Created _id: key-1\n") ∧
    ((upsertDocument 3 sampleConfig sampleEnv distinctFailures).w.status = some 500 ∧
      (upsertDocument 3 sampleConfig sampleEnv distinctFailures).w.body = "third\n") := by
  have h1 := (upsert_response 3 sampleConfig sampleEnv failTwiceThenOk (by decide)).1
    ⟨3, by decide, by decide, ⟨0, 0, 1⟩, rfl⟩
  have h2 := (upsert_response 3 sampleConfig sampleEnv distinctFailures (by decide)).2
    (fun j h1 h2 => by
      have hj : j = 1 ∨ j = 2 ∨ j = 3 := by omega
      rcases hj with rfl | rfl | rfl
      · exact ⟨_, rfl⟩
      · exact ⟨_, rfl⟩
      · exact ⟨_, rfl⟩)
    (.other "third") rfl
  exact ⟨⟨h1.1, h1.2.1⟩, ⟨h2.1, h2.2.1⟩⟩

/-- C9: in `upsertDocument` and `findDocuments` the deadline is computed once,
before the first attempt, from the clock and the configured timeout only, and
every database call of the retry sequence is issued with that same context:
the context of an attempt does not depend on the attempt. -/
theorem one_deadline_for_all_attempts (numRetries : Int) (config : Config) (env : Env)
    (UpdateOne : Int → Except Err UpdateResult) (D : Type)
    (Find : Int → Except Err (Cursor D)) :
    (∀ e ∈ (upsertDocument numRetries config env UpdateOne).trace,
      ∀ c, e.ctx? = some c → c = upsertCtx config env) ∧
    (∀ e ∈ (findDocuments numRetries config env Find).trace,
      ∀ c, e.ctx? = some c → c = findCtx config env) ∧
    upsertCtx config env
      = ⟨env.now + wrap64 (config.UpsertContextTimeout * 1000000)⟩ ∧
    findCtx config env
      = ⟨env.now + wrap64 (config.FindContextTimeout * 1000000)⟩ := by
  refine ⟨?_, ?_, rfl, rfl⟩
  · intro e he c hc
    rw [upsertDocument_trace, List.mem_append] at he
    rcases he with he | he
    · exact retryLoop_ctx numRetries UpdateOne
        (fun ok => Effect.UpdateOne (upsertCtx config env) (upsertDoc env).Key (upsertDoc env)
          true ok)
        "upsert" "upsert error: %+v, attempt %v" (upsertCtx config env) (fun _ => rfl)
        1 { err := none, res := none, trace := [] } (fun e he => by simp at he) e he c hc
    · simp only [List.mem_singleton] at he
      subst he
      simp [Effect.ctx?] at hc
  · intro e he c hc
    have hloop := retryLoop_ctx numRetries Find
        (fun ok => Effect.Find (findCtx config env) (env.Intn 0 500000 + 1) 5 ok)
        "find" "find error: %+v, attempt %v" (findCtx config env) (fun _ => rfl)
        1 { err := none, res := none, trace := [] } (fun e he => by simp at he)
    simp only [findDocuments] at he
    split at he
    · rw [List.mem_append] at he
      rcases he with he | he
      · exact hloop e he c hc
      · simp only [List.mem_singleton] at he
        subst he
        simp [Effect.ctx?] at hc
    · split at he
      · rw [List.mem_append] at he
        rcases he with he | he
        · exact hloop e he c hc
        · simp only [List.mem_singleton] at he
          subst he
          simp [Effect.ctx?] at hc
      · rw [List.mem_append] at he
        rcases he with he | he
        · exact hloop e he c hc
        · simp only [List.mem_cons, List.mem_singleton, List.not_mem_nil, or_false] at he
          rcases he with he | he
          · subst he
            simp [Effect.ctx?] at hc
          · subst he
            simp [Effect.ctx?] at hc

/-- C10: if `numRetries < 1`, the retry loop of `upsertDocument` runs zero
iterations: no database call is made, no counter is incremented, `err` stays
nil, and the handler still answers 201 `Created _id: <key>`. Under
`numRetries ≥ 1` a 201 response implies a successful database call. -/
theorem upsert_without_attempt_reports_success (numRetries : Int) (config : Config)
    (env : Env) (UpdateOne : Int → Except Err UpdateResult) :
    (numRetries < 1 →
      (upsertLoop numRetries config env UpdateOne).err = none ∧
      (upsertDocument numRetries config env UpdateOne).trace = [Effect.cancel] ∧
      dbCalls (upsertDocument numRetries config env UpdateOne).trace = 0 ∧
      trackCalls (upsertDocument numRetries config env UpdateOne).trace = 0 ∧
      eventCalls (upsertDocument numRetries config env UpdateOne).trace = 0 ∧
      (upsertDocument numRetries config env UpdateOne).w =
        { header := [], status := some 201,
          body := "Created _id: " ++ (upsertDoc env).Key ++ "\n", headerWrites := 1 }) ∧
    (1 ≤ numRetries →
      (upsertDocument numRetries config env UpdateOne).w.status = some 201 →
      ∃ e ∈ (upsertDocument numRetries config env UpdateOne).trace, e.isOkDbCall = true) := by
  constructor
  · intro hlt
    have hloop : upsertLoop numRetries config env UpdateOne
        = { err := none, res := none, trace := [] } := by
      unfold upsertLoop
      exact retryLoop_done numRetries UpdateOne _ _ _ 1 _ (by omega)
    have herr : (upsertLoop numRetries config env UpdateOne).err = none := by rw [hloop]
    have htrace : (upsertDocument numRetries config env UpdateOne).trace = [Effect.cancel] := by
      rw [upsertDocument_trace, hloop]
      rfl
    refine ⟨herr, htrace, ?_, ?_, ?_, upsertDocument_w_ok numRetries config env UpdateOne herr⟩
    · rw [htrace]; rfl
    · rw [htrace]; rfl
    · rw [htrace]; rfl
  · intro hn hstatus
    have herr : (upsertLoop numRetries config env UpdateOne).err = none := by
      cases hc : (upsertLoop numRetries config env UpdateOne).err with
      | none => rfl
      | some e =>
        rw [upsertDocument_w_err numRetries config env UpdateOne e hc] at hstatus
        simp at hstatus
    obtain ⟨e, he, hok⟩ := retryLoop_err_none numRetries UpdateOne
      (fun ok => Effect.UpdateOne (upsertCtx config env) (upsertDoc env).Key (upsertDoc env)
        true ok)
      "upsert" "upsert error: %+v, attempt %v" (updateOne_entry _ _ _ _) _ 1
      { err := none, res := none, trace := [] } rfl hn herr
    refine ⟨e, ?_, hok⟩
    rw [upsertDocument_trace, List.mem_append]
    exact Or.inl he

/-- Witness of C10: ceiling 0 with a database that would fail, and ceiling 3
with a success at the third attempt. -/
theorem upsert_without_attempt_reports_success_witness :
    ((upsertDocument 0 sampleConfig sampleEnv deadlineElapsed).trace = [Effect.cancel] ∧
      (upsertDocument 0 sampleConfig sampleEnv deadlineElapsed).w.status = some 201 ∧
      (upsertDocument 0 sampleConfig sampleEnv deadlineElapsed).w.body
        = "Created _id: key-1\n") ∧
    (∃ e ∈ (upsertDocument 3 sampleConfig sampleEnv failTwiceThenOk).trace,
      e.isOkDbCall = true) := by
  have h0 := (upsert_without_attempt_reports_success 0 sampleConfig sampleEnv
    deadlineElapsed).1 (by decide)
  have h3 := (upsert_without_attempt_reports_success 3 sampleConfig sampleEnv
    failTwiceThenOk).2 (by decide)
    (by simp [upsertDocument, upsertLoop, retryLoop, failTwiceThenOk, ResponseWriter.new,
      ResponseWriter.WriteHeader, ResponseWriter.Write, StatusCreated])
  refine ⟨⟨h0.2.1, ?_, ?_⟩, h3⟩
  · rw [h0.2.2.2.2.2]
  · rw [h0.2.2.2.2.2]
    rfl

end MongoGoSample
